import Mathlib

/-!
# Nested (ragged) tensors: matmul / addmm forward and backward

Shallow embedding of `nestedtensor/csrc/matmul.cpp` and
`nestedtensor/csrc/nested_tensor.h`.

* Dense arrays are a shape together with their elements in row-major order.
  Elements are integers, so all arithmetic is exact.
* Fallible code returns `Except Error`.
* The autograd context is passed explicitly: a forward returns the new context
  together with its result.
* A dense array holds no memory layout; where `nested_tensor.h` asks whether an
  array is contiguous, the answer is a parameter of the embedded method.
* Reads that have no defined behaviour in the source (an index past the end of a
  `std::vector`, the value of an empty optional) are reported as errors.
-/

set_option autoImplicit false

/-! ## Errors -/

/-- Failures, tagged by where they are raised. -/
inductive Error where
  /-- A `TORCH_CHECK` written in the embedded source file failed. -/
  | torch_check (msg : String)
  /-- A `std::runtime_error` thrown by the nested tensor code. -/
  | runtime_error (msg : String)
  /-- A bounds-checked index (`c10::List::operator[]`) was out of range;
  also used for an out-of-range `std::vector` index. -/
  | out_of_range
  /-- Trees combined by a traversal differ in shape. -/
  | shape_mismatch
  /-- An error raised inside the dense array library. -/
  | library (msg : String)
deriving DecidableEq, Repr

/-- The macro `TORCH_CHECK(cond, msg)`. -/
def TORCH_CHECK (cond : Bool) (msg : String) : Except Error Unit :=
  if cond then .ok () else .error (.torch_check msg)

/-! ## Dense array primitive (the external dense array library) -/

/-- Number of elements of an array of the given shape. -/
def numel_of (sizes : List Nat) : Nat := sizes.foldr (· * ·) 1

/-- A plain dense array: its shape, its elements in row-major order, and its
requires-gradient flag. -/
structure DenseArray where
  sizes : List Nat
  data : List Int
  requires_grad : Bool
deriving DecidableEq, Repr

namespace DenseArray

/-- Method `numel()`. -/
def numel (t : DenseArray) : Nat := numel_of t.sizes

/-- Method `dim()`. -/
def dim (t : DenseArray) : Nat := t.sizes.length

/-- Method `size(d)` for a non-negative `d`. -/
def size (t : DenseArray) (d : Nat) : Except Error Nat :=
  match t.sizes.get? d with
  | some n => .ok n
  | none => .error (.library "Dimension out of range")

/-- The shape agrees with the number of stored elements. -/
def WellFormed (t : DenseArray) : Prop := t.data.length = numel_of t.sizes

instance (t : DenseArray) : Decidable t.WellFormed := by
  unfold WellFormed; infer_instance

end DenseArray

/-- The library's `ones({})`: a scalar array holding 1. -/
def at_ones_scalar : DenseArray := ⟨[], [1], false⟩

/-- The library's `empty({n})`. The contents of a fresh buffer are unspecified;
they are modelled as zeros (every position is overwritten before it is read). -/
def at_empty (n : Nat) : DenseArray := ⟨[n], List.replicate n 0, false⟩

/-- The library's `zeros_like`. -/
def at_zeros_like (t : DenseArray) : DenseArray :=
  ⟨t.sizes, List.replicate (numel_of t.sizes) 0, false⟩

/-- Row-major multi-index of the flat position `i` in an array of shape `sizes`. -/
def unravel : List Nat → Nat → List Nat
  | [], _ => []
  | d :: ds, i => (i / numel_of ds) % d :: unravel ds (i % numel_of ds)

/-- Flat row-major position of a multi-index in an array of shape `sizes`. -/
def ravel : List Nat → List Nat → Nat
  | _ :: ds, i :: is => i * numel_of ds + ravel ds is
  | _, _ => 0

/-- Exchange the entries at positions `i` and `j` of a list. -/
def swap_at (l : List Nat) (i j : Nat) : List Nat :=
  (l.set i (l.getD j 0)).set j (l.getD i 0)

/-- The library's `transpose(dim0, dim1)` on a dense array (non-negative dims). -/
def DenseArray.transpose (t : DenseArray) (dim0 dim1 : Nat) : Except Error DenseArray :=
  if dim0 < t.dim ∧ dim1 < t.dim then
    let out_sizes := swap_at t.sizes dim0 dim1
    .ok ⟨out_sizes,
      (List.range (numel_of out_sizes)).map (fun o =>
        t.data.getD (ravel t.sizes (swap_at (unravel out_sizes o) dim0 dim1)) 0),
      false⟩
  else .error (.library "Dimension out of range")

/-- The library's `infer_size` behind `reshape`: at most one entry may be `-1`
and is then inferred from the element count. A `-1` next to a zero-sized
dimension is rejected as ambiguous. -/
def infer_size (shape : List Int) (numel : Nat) : Except Error (List Nat) :=
  if shape.any (fun d => decide (d < -1)) then
    .error (.library "invalid shape dimension")
  else if 1 < shape.count (-1) then
    .error (.library "only one dimension can be inferred")
  else
    let newsize := numel_of ((shape.filter (fun d => decide (d ≠ -1))).map Int.toNat)
    let infer_dim := shape.contains (-1)
    if numel = newsize ∨ (infer_dim = true ∧ 0 < newsize ∧ numel % newsize = 0) then
      if infer_dim then
        if newsize = 0 then
          .error (.library "cannot reshape tensor of 0 elements: the unspecified dimension size -1 can be any value and is ambiguous")
        else
          .ok (shape.map (fun d => if d = -1 then numel / newsize else d.toNat))
      else .ok (shape.map Int.toNat)
    else .error (.library "shape is invalid for input size")

/-- The library's `reshape`: same elements in the same row-major order. -/
def DenseArray.reshape (t : DenseArray) (shape : List Int) : Except Error DenseArray :=
  match infer_size shape t.data.length with
  | .ok sizes => .ok ⟨sizes, t.data, false⟩
  | .error e => .error e

/-- The first `r` rows of width `k` of a row-major matrix. -/
def rows_of : Nat → Nat → List Int → List (List Int)
  | 0, _, _ => []
  | r + 1, k, a => a.take k :: rows_of r k (a.drop k)

/-- Column `j` of a row-major `k × n` matrix. -/
def column (k n j : Nat) (b : List Int) : List Int :=
  (List.range k).map (fun l => b.getD (l * n + j) 0)

/-- Inner product of two vectors. -/
def dot (x y : List Int) : Int := (List.zipWith (· * ·) x y).foldr (· + ·) 0

/-- Elements of the product of a row-major `r × k` matrix with a `k × n` matrix. -/
def mm_data (r k n : Nat) (a b : List Int) : List Int :=
  (rows_of r k a).flatMap (fun row => (List.range n).map (fun j => dot row (column k n j b)))

/-- Broadcast of two batch shapes, aligned at the right. -/
def broadcast_shapes : List Nat → List Nat → Except Error (List Nat)
  | a, b =>
    let n := max a.length b.length
    let a1 := List.replicate (n - a.length) 1 ++ a
    let b1 := List.replicate (n - b.length) 1 ++ b
    if (List.zipWith (fun x y => decide (x = y ∨ x = 1 ∨ y = 1)) a1 b1).all id then
      .ok (List.zipWith (fun x y => if x = 1 then y else x) a1 b1)
    else .error (.library "The size of tensor a must match the size of tensor b")

/-- Flat position, in an array of shape `sizes`, of the element that a
multi-index of a broadcast shape refers to (size-1 dimensions are repeated). -/
def ravel_broadcast (sizes idx : List Nat) : Nat :=
  let idx1 := idx.drop (idx.length - sizes.length)
  ravel sizes (List.zipWith (fun i s => if s = 1 then 0 else i) idx1 sizes)

/-- Batched matrix product with broadcast batch dimensions:
`a` has shape `batch_a ++ [r, k]`, `b` has shape `batch_b ++ [k, n]`. -/
def batched_mm (batch_a batch_b : List Nat) (r k n : Nat) (a b : List Int) :
    Except Error (List Nat × List Int) :=
  match broadcast_shapes batch_a batch_b with
  | .error e => .error e
  | .ok batch =>
    .ok (batch,
      (List.range (numel_of batch)).flatMap (fun o =>
        let idx := unravel batch o
        mm_data r k n
          ((a.drop (ravel_broadcast batch_a idx * (r * k))).take (r * k))
          ((b.drop (ravel_broadcast batch_b idx * (k * n))).take (k * n))))

/-- Batched case of the library's `matmul`: `sa` and `sb` are the operand shapes
after a one-dimensional operand has been given a unit dimension, which is removed
again from the result (`squeeze_a`, `squeeze_b`). -/
def batched_matmul (sa sb : List Nat) (squeeze_a squeeze_b : Bool) (a b : List Int) :
    Except Error DenseArray :=
  if sa.getD (sa.length - 1) 0 = sb.getD (sb.length - 2) 0 then
    match batched_mm (sa.take (sa.length - 2)) (sb.take (sb.length - 2))
        (sa.getD (sa.length - 2) 0) (sa.getD (sa.length - 1) 0) (sb.getD (sb.length - 1) 0) a b with
    | .error e => .error e
    | .ok (batch, d) =>
      .ok ⟨batch ++ (if squeeze_a then [] else [sa.getD (sa.length - 2) 0]) ++
          (if squeeze_b then [] else [sb.getD (sb.length - 1) 0]), d, false⟩
  else .error (.library "size mismatch")

/-- The library's `matmul` on two dense arrays: dot product, matrix-vector,
vector-matrix, matrix-matrix, and batched products with broadcasting. -/
def DenseArray.matmul (a b : DenseArray) : Except Error DenseArray :=
  match a.sizes, b.sizes with
  | [], _ => .error (.library "both arguments to matmul need to be at least 1D")
  | _, [] => .error (.library "both arguments to matmul need to be at least 1D")
  | [k], [k1] =>
    if k = k1 then .ok ⟨[], [dot a.data b.data], false⟩
    else .error (.library "inconsistent tensor size")
  | [r, k], [k1] =>
    if k = k1 then .ok ⟨[r], mm_data r k 1 a.data b.data, false⟩
    else .error (.library "size mismatch")
  | [k], [k1, n] =>
    if k = k1 then .ok ⟨[n], mm_data 1 k n a.data b.data, false⟩
    else .error (.library "size mismatch")
  | [r, k], [k1, n] =>
    if k = k1 then .ok ⟨[r, n], mm_data r k n a.data b.data, false⟩
    else .error (.library "mat1 and mat2 shapes cannot be multiplied")
  | sa, sb =>
    batched_matmul (if sa.length = 1 then 1 :: sa else sa) (if sb.length = 1 then sb ++ [1] else sb)
      (decide (sa.length = 1)) (decide (sb.length = 1)) a.data b.data

/-- The library's `expand`: broadcast an array to a target shape. -/
def DenseArray.expand (t : DenseArray) (target : List Nat) : Except Error (List Int) :=
  if t.sizes = target then .ok t.data
  else if t.sizes.length ≤ target.length ∧
      (List.zipWith (fun s d => decide (s = d ∨ s = 1)) t.sizes.reverse target.reverse).all id then
    .ok ((List.range (numel_of target)).map (fun o =>
      t.data.getD (ravel_broadcast t.sizes (unravel target o)) 0))
  else .error (.library "The expanded size of the tensor must match the existing size")

/-- The library's `addmm(self, mat1, mat2, beta, alpha)`: its fourth argument
`beta` scales `self` and its fifth argument `alpha` scales the product, that is
`beta * self + alpha * (mat1 @ mat2)` with `self` broadcast to the product's shape. -/
def DenseArray.addmm (self mat1 mat2 : DenseArray) (beta alpha : Int) : Except Error DenseArray :=
  match mat1.sizes, mat2.sizes with
  | [r, k], [k1, n] =>
    if k = k1 then
      match self.expand [r, n] with
      | .error e => .error e
      | .ok s =>
        .ok ⟨[r, n],
          List.zipWith (fun x y => beta * x + alpha * y) s (mm_data r k n mat1.data mat2.data),
          false⟩
    else .error (.library "mat1 and mat2 shapes cannot be multiplied")
  | _, _ => .error (.library "matrices expected")

/-- The library's `mul(tensor, scalar)` on a dense array. -/
def DenseArray.mul (t : DenseArray) (s : Int) : DenseArray :=
  ⟨t.sizes, t.data.map (fun x => x * s), false⟩

/-- The library's in-place `self.add_(t)` on dense arrays: `t` is broadcast to
the shape of `self`; the value returned is the new content of `self`. -/
def DenseArray.add_ (self t : DenseArray) : Except Error DenseArray :=
  match t.expand self.sizes with
  | .error e => .error e
  | .ok d => .ok ⟨self.sizes, List.zipWith (· + ·) self.data d, self.requires_grad⟩

/-! ## Tree container (`nested_node.h`; its code is not part of the embedded files) -/

/-- Modelled from the spec: the generic ordered tree `NestedNode<T>` declared in
`nested_node.h`. A node is either a leaf carrying a payload or an internal node
carrying an ordered sequence of children. -/
inductive NestedNode (α : Type) where
  | leaf (payload : α) : NestedNode α
  | node (children : List (NestedNode α)) : NestedNode α

namespace NestedNode

variable {α β γ δ : Type}

/-- Modelled from the spec: `degree()` of `nested_node.h`, the number of direct
children (0 for a leaf). -/
def degree : NestedNode α → Nat
  | .leaf _ => 0
  | .node cs => cs.length

mutual
/-- Modelled from the spec: `height()` of `nested_node.h`, the number of tree
levels above the leaves (0 for a leaf). -/
def height : NestedNode α → Nat
  | .leaf _ => 0
  | .node cs => 1 + height_children cs
/-- Largest height among a sequence of children. -/
def height_children : List (NestedNode α) → Nat
  | [] => 0
  | c :: cs => max (height c) (height_children cs)
end

mutual
/-- Modelled from the spec: `reduce(tree, f, init)` of `nested_node.h`, the
left-to-right depth-first fold over leaves with `acc = f(leaf, acc)`. -/
def reduce (f : α → β → β) : NestedNode α → β → β
  | .leaf a, acc => f a acc
  | .node cs, acc => reduce_children f cs acc
/-- Fold over a sequence of children, left to right. -/
def reduce_children (f : α → β → β) : List (NestedNode α) → β → β
  | [], acc => acc
  | c :: cs, acc => reduce_children f cs (reduce f c acc)
end

mutual
/-- Modelled from the spec: `flatten(tree)` of `nested_node.h`, the ordered
sequence of leaves in traversal order. -/
def flatten : NestedNode α → List α
  | .leaf a => [a]
  | .node cs => flatten_children cs
/-- Leaves of a sequence of children, left to right. -/
def flatten_children : List (NestedNode α) → List α
  | [] => []
  | c :: cs => flatten c ++ flatten_children cs
end

mutual
/-- Modelled from the spec: `map(f, tree)` of `nested_node.h`, which applies `f`
leaf-wise, left to right, and produces a tree of the same shape. The leaf
function may throw. -/
def map (f : α → Except Error β) : NestedNode α → Except Error (NestedNode β)
  | .leaf a =>
    match f a with
    | .ok b => .ok (.leaf b)
    | .error e => .error e
  | .node cs =>
    match map_children f cs with
    | .ok cs1 => .ok (.node cs1)
    | .error e => .error e
/-- Leaf-wise map over a sequence of children, left to right. -/
def map_children (f : α → Except Error β) : List (NestedNode α) → Except Error (List (NestedNode β))
  | [] => .ok []
  | c :: cs =>
    match map f c with
    | .error e => .error e
    | .ok c1 =>
      match map_children f cs with
      | .ok cs1 => .ok (c1 :: cs1)
      | .error e => .error e
end

mutual
/-- Modelled from the spec: `map(f, tree, tree)` of `nested_node.h` over two trees
of identical shape; it fails with a shape mismatch if the shapes diverge (the
degrees are compared before the children are visited). -/
def map2 (f : α → β → Except Error γ) : NestedNode α → NestedNode β → Except Error (NestedNode γ)
  | .leaf a, .leaf b =>
    match f a b with
    | .ok c => .ok (.leaf c)
    | .error e => .error e
  | .node as, .node bs =>
    if as.length = bs.length then
      match map2_children f as bs with
      | .ok cs => .ok (.node cs)
      | .error e => .error e
    else .error .shape_mismatch
  | _, _ => .error .shape_mismatch
/-- Leaf-wise map over two sequences of children, left to right. -/
def map2_children (f : α → β → Except Error γ) :
    List (NestedNode α) → List (NestedNode β) → Except Error (List (NestedNode γ))
  | [], [] => .ok []
  | a :: as, b :: bs =>
    match map2 f a b with
    | .error e => .error e
    | .ok c =>
      match map2_children f as bs with
      | .ok cs => .ok (c :: cs)
      | .error e => .error e
  | _, _ => .error .shape_mismatch
end

mutual
/-- Modelled from the spec: `map`/`apply` of `nested_node.h` over three trees of
identical shape. -/
def map3 (f : α → β → γ → Except Error δ) :
    NestedNode α → NestedNode β → NestedNode γ → Except Error (NestedNode δ)
  | .leaf a, .leaf b, .leaf c =>
    match f a b c with
    | .ok d => .ok (.leaf d)
    | .error e => .error e
  | .node as, .node bs, .node cs =>
    if as.length = bs.length ∧ as.length = cs.length then
      match map3_children f as bs cs with
      | .ok ds => .ok (.node ds)
      | .error e => .error e
    else .error .shape_mismatch
  | _, _, _ => .error .shape_mismatch
/-- Leaf-wise map over three sequences of children, left to right. -/
def map3_children (f : α → β → γ → Except Error δ) :
    List (NestedNode α) → List (NestedNode β) → List (NestedNode γ) →
      Except Error (List (NestedNode δ))
  | [], [], [] => .ok []
  | a :: as, b :: bs, c :: cs =>
    match map3 f a b c with
    | .error e => .error e
    | .ok d =>
      match map3_children f as bs cs with
      | .ok ds => .ok (d :: ds)
      | .error e => .error e
  | _, _, _ => .error .shape_mismatch
end

/-- Modelled from the spec: `get_first_leaf`, the first leaf in traversal order. -/
def get_first_leaf (t : NestedNode α) : Option α := (flatten t).head?

end NestedNode

/-- A tree of dense arrays (`TensorNode`). -/
abbrev TensorNode := NestedNode DenseArray

/-- A tree of leaf shapes (`SizeNode`). -/
abbrev SizeNode := NestedNode (List Nat)

/-- Bounds-checked `c10::List<int64_t>::operator[]`. -/
def list_at (l : List Nat) (i : Nat) : Except Error Nat :=
  match l.get? i with
  | some v => .ok v
  | none => .error .out_of_range

/-- Indexing `opt_sizes()[i]` of a `std::vector` of optional sizes. An index
past the end has no defined behaviour in the source; it is reported as an
error here. -/
def vector_at (l : List (Option Nat)) (i : Nat) : Except Error (Option Nat) :=
  match l.get? i with
  | some v => .ok v
  | none => .error .out_of_range

/-- Entry-wise agreement of two size lists: a dimension stays concrete only
where both lists hold the same concrete size. -/
def merge_sizes (a b : List (Option Nat)) : List (Option Nat) :=
  List.zipWith (fun x y => if x = y then x else none) a b

mutual
/-- Modelled from the spec: `construct_size` (declared outside the embedded
files). For each dimension the size is `some n` if every leaf agrees on `n` at
that dimension and `none` (ragged) otherwise; nested dimensions come from the
child counts, inner dimensions from the leaf shapes. -/
def construct_size : SizeNode → List (Option Nat)
  | .leaf sizes => sizes.map some
  | .node cs => some cs.length :: construct_size_children cs
/-- Agreement of the sizes of a sequence of children. -/
def construct_size_children : List SizeNode → List (Option Nat)
  | [] => []
  | [c] => construct_size c
  | c :: c1 :: cs => merge_sizes (construct_size c) (construct_size_children (c1 :: cs))
end

mutual
/-- Views into `buffer` for the leaves of a size tree, starting at element
`offset`: each leaf takes as many elements as its shape holds, and the next leaf
starts right after it. Returns the tree of views and the next offset. -/
def build_structure_from (buffer : List Int) : SizeNode → Nat → TensorNode × Nat
  | .leaf sizes, offset =>
    (.leaf ⟨sizes, (buffer.drop offset).take (numel_of sizes), false⟩, offset + numel_of sizes)
  | .node cs, offset =>
    ((NestedNode.node (build_children_from buffer cs offset).1),
      (build_children_from buffer cs offset).2)
/-- Views for a sequence of children, left to right. -/
def build_children_from (buffer : List Int) : List SizeNode → Nat → List TensorNode × Nat
  | [], offset => ([], offset)
  | c :: cs, offset =>
    ((build_structure_from buffer c offset).1 ::
        (build_children_from buffer cs (build_structure_from buffer c offset).2).1,
      (build_children_from buffer cs (build_structure_from buffer c offset).2).2)
end

/-- Modelled from the spec: `build_structure(buffer, size_tree)` (defined outside
the embedded files). It reconstructs a tree of views into `buffer`; each leaf's
element offset is the running sum of the prior leaves' element counts (row-major,
tightly packed). The buffer's element count has to equal the sum of all leaf
element counts (the packed invariant of the data model). -/
def build_structure (buffer : DenseArray) (nested_size : SizeNode) : Except Error TensorNode :=
  if buffer.data.length = NestedNode.reduce (fun sizes acc => acc + numel_of sizes) nested_size 0 then
    .ok (build_structure_from buffer.data nested_size 0).1
  else .error (.library "split_with_sizes expects split_sizes to sum exactly to the buffer size")

/-! ## NestedTensor (`nested_tensor.h`) -/

/-- The struct `NestedTensor`: the optional packed buffer, the tree of leaves and
the cached first leaf. -/
structure NestedTensor where
  _buffer : Option DenseArray
  _structure : TensorNode
  _first_variable : DenseArray

namespace NestedTensor

/-- Method `get_buffer()`. -/
def get_buffer (self : NestedTensor) : Option DenseArray := self._buffer

/-- Method `get_structure()`. -/
def get_structure (self : NestedTensor) : TensorNode := self._structure

/-- Method `nested_size()`: the tree of leaf shapes. Mapping `sizes()` over the
leaves cannot fail. -/
def nested_size (self : NestedTensor) : SizeNode :=
  match NestedNode.map (fun (tensor : DenseArray) => .ok tensor.sizes) self._structure with
  | .ok s => s
  | .error _ => .node []

/-- Method `size()` (called `opt_sizes()` in `matmul.cpp`). -/
def size (self : NestedTensor) : List (Option Nat) := construct_size self.nested_size

/-- Method `nested_dim()`. -/
def nested_dim (self : NestedTensor) : Nat := self._structure.height

/-- Method `dim()`. -/
def dim (self : NestedTensor) : Nat := self._first_variable.dim + self.nested_dim

/-- Method `requires_grad()`. -/
def requires_grad (self : NestedTensor) : Bool := self._first_variable.requires_grad

/-- Method `numel()`. Element counts are natural numbers here; the source
accumulates them in an `int64_t`. -/
def numel (self : NestedTensor) : Nat :=
  NestedNode.reduce (fun (leaf : DenseArray) (input : Nat) => input + leaf.numel) self._structure 0

/-- Method `__len__()`. -/
def __len__ (self : NestedTensor) : Nat := self._structure.degree

end NestedTensor

/-! ## Tensor handles, wrapping helpers and the autograd context -/

/-- A tensor handle as passed to the operators: either a plain dense array or a
nested tensor. -/
inductive Tensor where
  | dense (t : DenseArray) : Tensor
  | nested (impl : NestedTensor) : Tensor

/-- The helper `is_nested_tensor_impl`. -/
def is_nested_tensor_impl : Tensor → Bool
  | .dense _ => false
  | .nested _ => true

/-- The helper `get_nested_tensor_impl`, which throws on a plain dense array. -/
def get_nested_tensor_impl : Tensor → Except Error NestedTensor
  | .nested impl => .ok impl
  | .dense _ => .error (.runtime_error "Function requires NestedTensorImpl")

namespace Tensor

/-- Method `dim()` of a tensor handle. -/
def dim : Tensor → Nat
  | .dense t => t.dim
  | .nested impl => impl.dim

/-- Method `requires_grad()` of a tensor handle. -/
def requires_grad : Tensor → Bool
  | .dense t => t.requires_grad
  | .nested impl => impl.requires_grad

end Tensor

/-- Modelled from the spec: `wrap_tensor_node` (defined outside the embedded
files) wraps a tree of leaves, with the buffer they view into if there is one,
as a nested tensor; the cached first leaf is the first leaf in traversal order
(a scalar one when there is no leaf). -/
def wrap_tensor_node (buffer : Option DenseArray) (tree : TensorNode) : Tensor :=
  .nested ⟨buffer, tree, (tree.get_first_leaf).getD at_ones_scalar⟩

/-- Modelled from the spec: `map_nested_tensor` with one nested operand (an
external helper): applies a dense-array function leaf-wise and rewraps the
result, which is not packed. -/
def map_nested_tensor (f : DenseArray → Except Error DenseArray) (self : NestedTensor) :
    Except Error Tensor :=
  match NestedNode.map f self._structure with
  | .ok s => .ok (wrap_tensor_node none s)
  | .error e => .error e

/-- Modelled from the spec: `map_nested_tensor` with two nested operands. -/
def map_nested_tensor2 (f : DenseArray → DenseArray → Except Error DenseArray)
    (self other : NestedTensor) : Except Error Tensor :=
  match NestedNode.map2 f self._structure other._structure with
  | .ok s => .ok (wrap_tensor_node none s)
  | .error e => .error e

/-- A value stored in the saved data of an autograd context (`c10::IValue`). -/
inductive IValue where
  | none : IValue
  | tensor (t : Tensor) : IValue
  | scalar (s : Int) : IValue

namespace IValue

/-- Method `toTensor()`. -/
def toTensor : IValue → Except Error Tensor
  | .tensor t => .ok t
  | _ => .error (.library "Expected Tensor")

/-- Method `toScalar()`. -/
def toScalar : IValue → Except Error Int
  | .scalar s => .ok s
  | _ => .error (.library "Expected Scalar")

end IValue

/-- The field `saved_data` of an `AutogradContext`: a map from keys to values; a
key that was never written holds `none`. -/
structure AutogradContext where
  saved_data : String → IValue

/-- The assignment `ctx->saved_data[key] = value`. -/
def AutogradContext.save (ctx : AutogradContext) (key : String) (value : IValue) :
    AutogradContext :=
  ⟨fun k => if k = key then value else ctx.saved_data k⟩

/-- A context in which nothing has been saved. -/
def AutogradContext.empty : AutogradContext := ⟨fun _ => IValue.none⟩

/-- Dereference `*optional` of a `c10::optional` buffer. -/
def optional_value (o : Option DenseArray) : Except Error DenseArray :=
  match o with
  | some b => .ok b
  | none => .error (.library "bad optional access")

/-- Indexing `grad_output[i]` of a `variable_list`. -/
def variable_list_at (l : List Tensor) (i : Nat) : Except Error Tensor :=
  match l.get? i with
  | some g => .ok g
  | none => .error .out_of_range

/-! ## `matmul.cpp`: forward of `NestedTensorFunction_matmul` -/

/-- The guard of the packed NT x NT path of `NestedTensorFunction_matmul::forward`
(lines 23 to 30), evaluated left to right with short-circuit. -/
def packed_nt_nt_guard (impl_self impl_other : NestedTensor) : Except Error Bool :=
  if impl_self._buffer.isSome ∧ impl_other._buffer.isSome ∧ impl_self.dim = 4 ∧ impl_other.dim = 4 then do
    let s0 ← vector_at impl_self.size 0
    if s0.isSome then
      let o0 ← vector_at impl_other.size 0
      if o0.isSome then
        let s1 ← vector_at impl_self.size 1
        if s1.isSome then
          let o1 ← vector_at impl_other.size 1
          if o1.isSome then
            let s3 ← vector_at impl_self.size 3
            if s3.isSome then
              let o2 ← vector_at impl_other.size 2
              if o2.isSome then
                pure (decide (s0 = o0 ∧ s1 = o1 ∧ s3 = o2))
              else pure false
            else pure false
          else pure false
        else pure false
      else pure false
    else pure false
  else pure false

/-- The guard of the packed NT x T path, written identically in
`NestedTensorFunction_matmul::forward` (lines 64 to 67) and in
`NestedTensorFunction_addmm::forward` (lines 174 to 177): the last size of
`self` is compared with `other.size(self.dim() - 2)`. -/
def packed_nt_t_guard (impl_self : NestedTensor) (other : DenseArray) : Except Error Bool :=
  if impl_self.dim = 3 ∧ other.dim = 2 then do
    let s0 ← vector_at impl_self.size 0
    if s0.isSome then
      let s2 ← vector_at impl_self.size 2
      if s2.isSome then
        let s_last ← vector_at impl_self.size (impl_self.dim - 1)
        let o ← other.size (impl_self.dim - 2)
        pure (decide (s_last = some o))
      else pure false
    else pure false
  else pure false

/-- The call `apply_nested_tensor` with `at::matmul_out` of the packed NT x NT
path (lines 51 to 57): every product is written into the view prepared for it,
so the new buffer holds the products one after the other. A product whose shape
differs from its view would make `matmul_out` resize that view away from the
buffer; that leaf then holds the product and its buffer range keeps its old
content. -/
def apply_matmul_out (result_structure : TensorNode) (impl_self impl_other : NestedTensor) :
    Except Error (DenseArray × TensorNode) :=
  match NestedNode.map3
      (fun (result self other : DenseArray) =>
        match DenseArray.matmul self other with
        | .ok p => .ok (if p.sizes = result.sizes then p.data else result.data, p)
        | .error e => .error e)
      result_structure impl_self._structure impl_other._structure with
  | .error e => .error e
  | .ok written =>
    let buffer_data := ((NestedNode.flatten written).map Prod.fst).flatten
    match NestedNode.map (fun (w : List Int × DenseArray) => .ok w.2) written with
    | .ok s => .ok (⟨[buffer_data.length], buffer_data, false⟩, s)
    | .error e => .error e

namespace NestedTensorFunction_matmul

/-- The static method `NestedTensorFunction_matmul::forward`. Returns the context
after the call together with the result. The fold that computes `new_numel` reads
`leaf[0] * leaf[1] * leaf[2]` from the leaves of `new_nested_size`, which all have
exactly three entries, so these reads cannot fail. -/
def forward (ctx : AutogradContext) (self other : Tensor) :
    AutogradContext × Except Error Tensor :=
  let ctx := (ctx.save "0" (.tensor self)).save "1" (.tensor other)
  (ctx, do
    let impl_self ← get_nested_tensor_impl self
    match other with
    | .nested impl_other =>
      if (← packed_nt_nt_guard impl_self impl_other) then
        let new_nested_size ← NestedNode.map2
          (fun (self_size other_size : List Nat) => do
            let d0 ← list_at self_size 0
            let d1 ← list_at self_size 1
            let d2 ← list_at other_size 2
            pure [d0, d1, d2])
          impl_self.nested_size impl_other.nested_size
        let new_numel := NestedNode.reduce
          (fun (leaf : List Nat) (input : Nat) =>
            input + leaf.getD 0 0 * leaf.getD 1 0 * leaf.getD 2 0)
          new_nested_size 0
        let new_buffer := at_empty new_numel
        let result ← build_structure new_buffer new_nested_size
        let (buffer, tree) ← apply_matmul_out result impl_self impl_other
        pure (wrap_tensor_node (some buffer) tree)
      else
        map_nested_tensor2 (fun s o => DenseArray.matmul s o) impl_self impl_other
    | .dense other =>
      if impl_self._buffer.isSome then
        if (← packed_nt_t_guard impl_self other) then
          let new_nested_size ← NestedNode.map
            (fun (self_size : List Nat) => do
              let d0 ← list_at self_size 0
              let d1 ← other.size 1
              pure [d0, d1])
            impl_self.nested_size
          let buffer ← optional_value impl_self._buffer
          let rows ← other.size 0
          let lhs ← buffer.reshape [-1, (rows : Int)]
          let product ← DenseArray.matmul lhs other
          let flat ← product.reshape [-1]
          let tree ← build_structure flat new_nested_size
          pure (wrap_tensor_node (some flat) tree)
        else
          map_nested_tensor (fun tensor => DenseArray.matmul tensor other) impl_self
      else
        map_nested_tensor (fun tensor => DenseArray.matmul tensor other) impl_self)

end NestedTensorFunction_matmul

/-- The operator `NestedTensor_matmul`: applies the autograd function in a fresh
context and returns its result. -/
def NestedTensor_matmul (self other : Tensor) : Except Error Tensor :=
  (NestedTensorFunction_matmul.forward AutogradContext.empty self other).2

/-- The library call `at::matmul` on tensor handles: two plain dense arrays are
multiplied by the dense library; as soon as one operand is a nested tensor the
call is routed to `NestedTensor_matmul` (registration at lines 242 to 246). -/
def at_matmul (self other : Tensor) : Except Error Tensor :=
  match self, other with
  | .dense a, .dense b =>
    match DenseArray.matmul a b with
    | .ok c => .ok (.dense c)
    | .error e => .error e
  | _, _ => NestedTensor_matmul self other

/-! ## Library calls on tensor handles used by the backward passes -/

/-- Modelled from the spec: `transpose(dim0, dim1)` on a tensor handle. On a
nested tensor only inner (leaf) dimensions can be exchanged, leaf by leaf; the
result is not packed. -/
def Tensor.transpose (self : Tensor) (dim0 dim1 : Nat) : Except Error Tensor :=
  match self with
  | .dense t =>
    match t.transpose dim0 dim1 with
    | .ok r => .ok (.dense r)
    | .error e => .error e
  | .nested impl =>
    if impl.nested_dim ≤ dim0 ∧ impl.nested_dim ≤ dim1 then
      map_nested_tensor
        (fun t => t.transpose (dim0 - impl.nested_dim) (dim1 - impl.nested_dim)) impl
    else .error (.library "Transposition of nested dimensions is not implemented yet.")

/-- Modelled from the spec: `at::mul(tensor, scalar)` on a tensor handle; on a
nested tensor every leaf is scaled and the result is not packed. -/
def at_mul (self : Tensor) (s : Int) : Except Error Tensor :=
  match self with
  | .dense t => .ok (.dense (t.mul s))
  | .nested impl => map_nested_tensor (fun leaf => .ok (leaf.mul s)) impl

/-- The call `apply_nested_tensor([&grad_other](at::Tensor& t) { grad_other.add_(t); },
grad_other_nt)`: every leaf of `grad_other_nt` is added into `grad_other`, in
traversal order. `grad_other_nt` has to be a nested tensor. -/
def apply_nested_tensor_add_ (grad_other : DenseArray) (grad_other_nt : Tensor) :
    Except Error DenseArray :=
  match get_nested_tensor_impl grad_other_nt with
  | .error e => .error e
  | .ok impl =>
    NestedNode.reduce
      (fun (t : DenseArray) (acc : Except Error DenseArray) =>
        match acc with
        | .ok g => g.add_ t
        | .error e => .error e)
      impl._structure (.ok grad_other)

/-- The two statements `auto grad_other = torch::zeros_like(other);` and
`apply_nested_tensor(..., grad_other_nt);` of `NestedTensorFunction_addmm::backward`
(lines 221 to 223). The saved `other` is a plain dense array whenever the context
was written by `forward`; adding leaves into the zeros of a nested `other` is
outside the modelled library. -/
def zeros_like_add_ (other grad_other_nt : Tensor) : Except Error Tensor :=
  match other with
  | .dense other_dense =>
    match apply_nested_tensor_add_ (at_zeros_like other_dense) grad_other_nt with
    | .ok g => .ok (.dense g)
    | .error e => .error e
  | .nested _ => .error (.library "add_ into a nested tensor is outside the modelled library")

/-- The function `mm_mat1_backward`. -/
def mm_mat1_backward (grad other : Tensor) (alpha : Int) : Except Error Tensor := do
  let other_t ← other.transpose 0 1
  let product ← at_matmul grad other_t
  at_mul product alpha

namespace NestedTensorFunction_matmul

/-- The static method `NestedTensorFunction_matmul::backward`. -/
def backward (ctx : AutogradContext) (grad_output : List Tensor) :
    Except Error (List (Option Tensor)) := do
  TORCH_CHECK (decide (grad_output.length = 1)) "Expected grad_output of size 1 for addmm."
  let grad ← variable_list_at grad_output 0
  TORCH_CHECK (!grad.requires_grad) "addmm does not support double backward."
  let self ← (ctx.saved_data "0").toTensor
  let other ← (ctx.saved_data "1").toTensor
  TORCH_CHECK (decide (self.dim > 3)) "NT self must be at least 3-dim."
  TORCH_CHECK (is_nested_tensor_impl self) "self must be NestedTensor"
  match other with
  | .dense other_dense =>
    TORCH_CHECK (decide (other.dim > 2)) "T other must be 2-dim."
    let other_t ← other.transpose 0 1
    let grad_self ← at_matmul grad other_t
    let self_t ← self.transpose (self.dim - 2) (self.dim - 1)
    let grad_other_nt ← at_matmul self_t grad
    let grad_other ← apply_nested_tensor_add_ (at_zeros_like other_dense) grad_other_nt
    pure [some grad_self, some (.dense grad_other)]
  | .nested _ =>
    TORCH_CHECK (decide (other.dim > 3)) "NT other must be at least 3-dim."
    let other_t ← other.transpose (other.dim - 2) (other.dim - 1)
    let grad_self ← at_matmul grad other_t
    let self_t ← self.transpose (self.dim - 2) (self.dim - 1)
    let grad_other ← at_matmul self_t grad
    pure [some grad_self, some grad_other]

end NestedTensorFunction_matmul

namespace NestedTensorFunction_addmm

/-- The static method `NestedTensorFunction_addmm::forward`. Returns the context
after the call together with the result. The two scalars are handed to the
library's `addmm` in the order in which the source writes them. -/
def forward (ctx : AutogradContext) (input self other : Tensor) (alpha beta : Int) :
    AutogradContext × Except Error Tensor :=
  match input, self, other with
  | .nested _, _, _ => (ctx, .error (.torch_check "input must be Tensor"))
  | .dense _, .dense _, _ => (ctx, .error (.torch_check "self must be NestedTensor"))
  | .dense _, .nested _, .nested _ => (ctx, .error (.torch_check "other must be Tensor"))
  | .dense input_dense, .nested impl_self, .dense other_dense =>
    let ctx := ((((ctx.save "0" (.tensor input)).save "1" (.tensor self)).save "2"
      (.tensor other)).save "3" (.scalar alpha)).save "4" (.scalar beta)
    (ctx, do
      if impl_self._buffer.isSome then
        if (← packed_nt_t_guard impl_self other_dense) then
          let new_nested_size ← NestedNode.map
            (fun (self_size : List Nat) => do
              let d0 ← list_at self_size 0
              let d1 ← other_dense.size 1
              pure [d0, d1])
            impl_self.nested_size
          let buffer ← optional_value impl_self._buffer
          let rows ← other_dense.size 0
          let lhs ← buffer.reshape [-1, (rows : Int)]
          let sum ← DenseArray.addmm input_dense lhs other_dense alpha beta
          let flat ← sum.reshape [-1]
          let tree ← build_structure flat new_nested_size
          pure (wrap_tensor_node (some flat) tree)
        else
          map_nested_tensor
            (fun tensor => DenseArray.addmm input_dense tensor other_dense alpha beta) impl_self
      else
        map_nested_tensor
          (fun tensor => DenseArray.addmm input_dense tensor other_dense alpha beta) impl_self)

/-- The static method `NestedTensorFunction_addmm::backward`. -/
def backward (ctx : AutogradContext) (grad_output : List Tensor) :
    Except Error (List (Option Tensor)) := do
  TORCH_CHECK (decide (grad_output.length = 1)) "Expected grad_output of size 1 for addmm."
  let grad ← variable_list_at grad_output 0
  TORCH_CHECK (!grad.requires_grad) "addmm does not support double backward."
  let input ← (ctx.saved_data "0").toTensor
  let self ← (ctx.saved_data "1").toTensor
  let other ← (ctx.saved_data "2").toTensor
  let alpha ← (ctx.saved_data "3").toScalar
  let beta ← (ctx.saved_data "4").toScalar
  let self_t ← self.transpose 1 2
  let product ← at_matmul self_t grad
  let grad_other_nt ← at_mul product alpha
  let grad_other ← zeros_like_add_ other grad_other_nt
  let grad_input ← at_mul input beta
  let grad_self ← mm_mat1_backward grad other alpha
  pure [some grad_input, some grad_self, some grad_other, none, none]

end NestedTensorFunction_addmm

/-- The operator `NestedTensor_addmm`. -/
def NestedTensor_addmm (input self other : Tensor) (alpha beta : Int) : Except Error Tensor :=
  (NestedTensorFunction_addmm.forward AutogradContext.empty input self other alpha beta).2

/-! ## Concrete inputs used by the evaluation theorems -/

/-- A dense array that does not require gradients. -/
def dense_of (sizes : List Nat) (data : List Int) : DenseArray := ⟨sizes, data, false⟩

/-- The packed nested tensor of nesting depth 1 over the given leaves: the buffer
holds the leaves' elements one after the other. -/
def packed_of (leaves : List DenseArray) : NestedTensor :=
  ⟨some ⟨[(leaves.map (fun t => t.data)).flatten.length], (leaves.map (fun t => t.data)).flatten, false⟩,
    .node (leaves.map .leaf), leaves.head?.getD at_ones_scalar⟩

/-- The nested tensor of nesting depth 1 over the given leaves, without a buffer. -/
def unpacked_of (leaves : List DenseArray) : NestedTensor :=
  ⟨none, .node (leaves.map .leaf), leaves.head?.getD at_ones_scalar⟩

/-- The packed nested tensor of nesting depth 2 that holds the same leaf in each
of its `batch * head` slots. -/
def packed_slots (leaf : DenseArray) (batch head : Nat) : NestedTensor :=
  ⟨some ⟨[batch * head * leaf.data.length], (List.replicate (batch * head) leaf.data).flatten, false⟩,
    .node (List.replicate batch (.node (List.replicate head (.leaf leaf)))), leaf⟩

/-- A dense array of the given shape whose elements are all `v`. -/
def full (sizes : List Nat) (v : Int) : DenseArray :=
  ⟨sizes, List.replicate (numel_of sizes) v, false⟩

/-- The context left behind by `NestedTensorFunction_matmul::forward`. -/
def matmul_saved (self other : Tensor) : AutogradContext :=
  (NestedTensorFunction_matmul.forward AutogradContext.empty self other).1

/-- The context left behind by `NestedTensorFunction_addmm::forward`. -/
def addmm_saved (input self other : Tensor) (alpha beta : Int) : AutogradContext :=
  (NestedTensorFunction_addmm.forward AutogradContext.empty input self other alpha beta).1

/-- The value the specification gives for one leaf of `addmm`:
`alpha * (leaf @ other) + beta * input`, with `input` broadcast to the product. -/
def addmm_leaf_spec (input leaf other : DenseArray) (alpha beta : Int) : Except Error DenseArray :=
  match DenseArray.matmul leaf other with
  | .error e => .error e
  | .ok p =>
    match input.expand p.sizes with
    | .error e => .error e
    | .ok i => .ok ⟨p.sizes, List.zipWith (fun x y => alpha * x + beta * y) p.data i, false⟩

/-- The nested tensor of nesting depth 2 that holds the same leaf in each of its
`batch * head` slots, without a buffer. -/
def unpacked_slots (leaf : DenseArray) (batch head : Nat) : NestedTensor :=
  ⟨none, .node (List.replicate batch (.node (List.replicate head (.leaf leaf)))), leaf⟩

/-- A nested tensor of nesting depth 1 that holds a buffer while its single leaf is
a strided view of it: the buffer is `[1, 2, 3, 4]` and the leaf is the transpose
`[[1, 3], [2, 4]]` of the buffer read as a 2 x 2 matrix. -/
def packed_transposed_leaf : NestedTensor :=
  ⟨some ⟨[4], [1, 2, 3, 4], false⟩, .node [.leaf ⟨[2, 2], [1, 3, 2, 4], false⟩],
    ⟨[2, 2], [1, 3, 2, 4], false⟩⟩

/-- The result is not the failure of a `TORCH_CHECK` of the embedded source file. -/
def NoCheck {α : Type} (x : Except Error α) : Prop := ∀ msg, x ≠ .error (.torch_check msg)

/-- Every leaf is a matrix of width `k` that holds as many elements as its shape says. -/
def MatrixLeaves (k : Nat) (leaves : List DenseArray) : Prop :=
  ∀ t ∈ leaves, ∃ r, t.sizes = [r, k] ∧ t.data.length = r * k

/-- The nested tensor has nesting depth 1 over `leaves`, and its buffer, when it
has one, holds the elements of the leaves one after the other (the packed layout
of the data model). -/
def NestedTensor.HoldsLeaves (self : NestedTensor) (leaves : List DenseArray) : Prop :=
  self._structure = .node (leaves.map .leaf) ∧
  ∀ b, self._buffer = some b → b.data = (leaves.map (fun t => t.data)).flatten

/-- Number of rows of a matrix-shaped leaf. -/
def rows (t : DenseArray) : Nat := t.sizes.headD 0

/-- The dense product `leaf @ other` of a matrix leaf of width `k` with a `k × n`
matrix, computed for that leaf alone. -/
def leaf_product (k n : Nat) (other leaf : DenseArray) : DenseArray :=
  ⟨[rows leaf, n], mm_data (rows leaf) k n leaf.data other.data, false⟩

/-- Dense arrays added one after the other into `init` with the library's in-place
addition. -/
def accumulate (init : DenseArray) : List DenseArray → Except Error DenseArray
  | [] => .ok init
  | t :: ts =>
    match init.add_ t with
    | .ok g => accumulate g ts
    | .error e => .error e

/-! ## `nested_tensor.h`: contiguity, `to_tensor` and `requires_grad_` -/

namespace NestedNode

variable {α β : Type}

mutual
/-- Modelled from the spec: `apply(f, tree)` of `nested_node.h` for a leaf
function that cannot fail, as the tree that holds the updated leaves; the tree
shape is kept and the leaves are visited left to right. -/
def image (f : α → β) : NestedNode α → NestedNode β
  | .leaf a => .leaf (f a)
  | .node cs => .node (image_children f cs)
/-- Leaf-wise update of a sequence of children, left to right. -/
def image_children (f : α → β) : List (NestedNode α) → List (NestedNode β)
  | [] => []
  | c :: cs => image f c :: image_children f cs
end

/-- Tree shape: the tree with its payloads erased, which keeps the degree at every
level and the height. -/
def shape (t : NestedNode α) : NestedNode Unit := image (fun _ => ()) t

end NestedNode

/-- The library's `stack` of a list of dense arrays along a new leading axis: the
list must not be empty and all arrays must have the same shape. -/
def at_stack (tensors : List DenseArray) : Except Error DenseArray :=
  match tensors with
  | [] => .error (.library "stack expects a non-empty TensorList")
  | t :: ts =>
    if ts.all (fun u => decide (u.sizes = t.sizes)) then
      .ok ⟨(ts.length + 1) :: t.sizes, ((t :: ts).map (fun u => u.data)).flatten, false⟩
    else .error (.library "stack expects each tensor to be equal size")

/-- The loop of `to_tensor()` over `size()`: it throws at the first entry that is
`None` and collects the concrete values otherwise. -/
def concrete_sizes : List (Option Nat) → Except Error (List Nat)
  | [] => .ok []
  | none :: _ => .error (.runtime_error "to_tensor only works if none of size() is None.")
  | some n :: rest =>
    match concrete_sizes rest with
    | .ok l => .ok (n :: l)
    | .error e => .error e

/-- The library's `set_requires_grad` on a dense array. -/
def DenseArray.set_requires_grad (t : DenseArray) (requires_grad : Bool) : DenseArray :=
  ⟨t.sizes, t.data, requires_grad⟩

namespace NestedTensor

/-- Method `is_contiguous()`. The library method `is_contiguous()` of a dense
array reads its memory layout, which the embedding does not hold: it is the
parameter `layout`. The source evaluates `_buffer.is_contiguous()` first and does
not test whether the optional buffer holds an array; reading the value of an empty
optional has no defined behaviour in the source and is reported as an error here. -/
def is_contiguous (layout : DenseArray → Bool) (self : NestedTensor) : Except Error Bool :=
  match optional_value self._buffer with
  | .error e => .error e
  | .ok buffer =>
    .ok (layout buffer &&
      NestedNode.reduce (fun (leaf : DenseArray) (input : Bool) => input && layout leaf)
        self._structure true)

/-- Method `to_tensor()`. -/
def to_tensor (layout : DenseArray → Bool) (self : NestedTensor) : Except Error DenseArray :=
  match self.is_contiguous layout with
  | .error e => .error e
  | .ok true =>
    match concrete_sizes self.size with
    | .error e => .error e
    | .ok new_size =>
      match optional_value self._buffer with
      | .error e => .error e
      | .ok b => b.reshape (new_size.map Int.ofNat)
  | .ok false => at_stack (NestedNode.flatten self._structure)

/-- Method `requires_grad_(requires_grad)`. The method updates the object in place
and returns `*this`: the first component is the object after the statements that
were executed, the second tells whether the call returned. The flag is set on
every leaf, and then on the buffer if `is_contiguous()` returns true. The cached
first leaf is a handle on the first leaf in traversal order, so it shows the new
flag as well. -/
def requires_grad_ (layout : DenseArray → Bool) (self : NestedTensor) (requires_grad : Bool) :
    NestedTensor × Except Error Unit :=
  let applied : NestedTensor :=
    ⟨self._buffer,
      NestedNode.image (fun tensor => tensor.set_requires_grad requires_grad) self._structure,
      ((NestedNode.image (fun tensor => tensor.set_requires_grad requires_grad)
        self._structure).get_first_leaf).getD self._first_variable⟩
  match applied.is_contiguous layout with
  | .error e => (applied, .error e)
  | .ok true =>
    (⟨applied._buffer.map (fun b => b.set_requires_grad requires_grad), applied._structure,
      applied._first_variable⟩, .ok ())
  | .ok false => (applied, .ok ())

end NestedTensor

mutual
/-- All children of every node have size lists of the same length: all leaves of
the tree have the same rank and sit at the same nesting depth. -/
def uniform_rank : SizeNode → Bool
  | .leaf _ => true
  | .node cs => uniform_rank_children cs
/-- Neighbouring children have size lists of the same length, and so on below. -/
def uniform_rank_children : List SizeNode → Bool
  | [] => true
  | [c] => uniform_rank c
  | c :: c1 :: cs =>
    uniform_rank c && decide ((construct_size c).length = (construct_size c1).length) &&
      uniform_rank_children (c1 :: cs)
end

/-- The legality condition of the packed batched-head strategy as the
specification words it: both operands packed, both of rank 4, batch size (index 0)
and head count (index 1) concrete and equal between the operands, and the trailing
dimension of `self` (index 3) concrete and equal to the second-to-last dimension of
`other` (index 2). -/
def batched_head_pattern (self other : NestedTensor) : Bool :=
  self._buffer.isSome && other._buffer.isSome && decide (self.dim = 4) && decide (other.dim = 4) &&
    (self.size.getD 0 none).isSome && decide (self.size.getD 0 none = other.size.getD 0 none) &&
    (self.size.getD 1 none).isSome && decide (self.size.getD 1 none = other.size.getD 1 none) &&
    (self.size.getD 3 none).isSome && decide (self.size.getD 3 none = other.size.getD 2 none)

/-- A memory layout in which every dense array is contiguous. -/
def layout_all_contiguous : DenseArray → Bool := fun _ => true

/-- A memory layout in which the one-dimensional arrays (the buffers) are
contiguous and the leaves of higher rank are strided views that are not. -/
def layout_strided_leaves : DenseArray → Bool := fun t => decide (t.sizes.length ≤ 1)

/-! ## Theorems -/

namespace NestedNode

variable {α β : Type}

mutual
/-- The fold `reduce` visits the leaves in the order of `flatten`. -/
theorem reduce_eq_foldl_flatten (f : α → β → β) :
    ∀ (t : NestedNode α) (acc : β),
      reduce f t acc = (flatten t).foldl (fun a x => f x a) acc
  | .leaf a, acc => by simp [reduce, flatten]
  | .node cs, acc => by
    simp only [reduce, flatten]
    exact reduce_children_eq_foldl_flatten f cs acc
/-- The fold over children visits the leaves in the order of `flatten_children`. -/
theorem reduce_children_eq_foldl_flatten (f : α → β → β) :
    ∀ (cs : List (NestedNode α)) (acc : β),
      reduce_children f cs acc = (flatten_children cs).foldl (fun a x => f x a) acc
  | [], acc => by simp [reduce_children, flatten_children]
  | c :: cs, acc => by
    simp only [reduce_children, flatten_children, List.foldl_append]
    rw [reduce_eq_foldl_flatten f c acc, reduce_children_eq_foldl_flatten f cs]
end

end NestedNode

/-- Adding up element counts from an accumulator is the accumulator plus the sum. -/
theorem foldl_add_numel (l : List DenseArray) (acc : Nat) :
    l.foldl (fun a x => a + x.numel) acc = acc + (l.map DenseArray.numel).sum := by
  induction l generalizing acc with
  | nil => simp
  | cons x xs ih => simp [ih, Nat.add_assoc]

/-- C7: for every NestedTensor (any tree, any nesting depth, also without leaves),
`numel()`, the left-to-right fold of `acc + leaf.numel()` from 0 over the structure,
equals the sum of `leaf.numel()` over `flatten(structure)`. -/
theorem C7_numel_eq_sum_flatten (self : NestedTensor) :
    self.numel = ((NestedNode.flatten self._structure).map DenseArray.numel).sum := by
  unfold NestedTensor.numel
  rw [NestedNode.reduce_eq_foldl_flatten, foldl_add_numel]
  simp

/-- C5: `NestedTensorFunction_addmm::forward` fails on a `TORCH_CHECK` whenever
`input` is nested, or `self` is not nested, or `other` is nested, for any scalars;
and the context it returns is the context it was given. -/
theorem C5_addmm_forward_role_violation (ctx : AutogradContext) (input self other : Tensor)
    (alpha beta : Int)
    (h : is_nested_tensor_impl input = true ∨ is_nested_tensor_impl self = false ∨
      is_nested_tensor_impl other = true) :
    ∃ msg, NestedTensorFunction_addmm.forward ctx input self other alpha beta =
      (ctx, .error (.torch_check msg)) := by
  cases input <;> cases self <;> cases other <;>
    simp [NestedTensorFunction_addmm.forward, is_nested_tensor_impl] at h ⊢

/-- C5 at a concrete call: a nested `other` is rejected and an empty context stays
as it was. -/
theorem C5_addmm_forward_role_violation_witness :
    is_nested_tensor_impl (.nested (packed_of [dense_of [2, 2] [1, 2, 3, 4]])) = true ∧
    ∃ msg, NestedTensorFunction_addmm.forward AutogradContext.empty
        (.dense (dense_of [2] [1, 1]))
        (.nested (packed_of [dense_of [1, 2] [5, 6]]))
        (.nested (packed_of [dense_of [2, 2] [1, 2, 3, 4]])) 1 1 =
      (AutogradContext.empty, .error (.torch_check msg)) :=
  ⟨rfl, C5_addmm_forward_role_violation AutogradContext.empty _ _ _ 1 1 (Or.inr (Or.inr rfl))⟩

/-! ### Evaluations of the operators at concrete inputs -/

/-- C1 at a zero-width input: `self` is packed with one leaf of shape (2, 0) and
`other` has shape (0, 0). The guard of the packed path holds (0 = 0), the buffer is
reshaped to `(-1, 0)` and the library rejects that, although the leaf-wise path,
taken by the same tensor without its buffer, returns the leaf `leaf @ other` of
shape (2, 0). -/
theorem C1_matmul_forward_zero_width :
    packed_nt_t_guard (packed_of [dense_of [2, 0] []]) (dense_of [0, 0] []) = .ok true ∧
    (NestedTensorFunction_matmul.forward AutogradContext.empty
        (.nested (packed_of [dense_of [2, 0] []])) (.dense (dense_of [0, 0] []))).2 =
      .error (.library "cannot reshape tensor of 0 elements: the unspecified dimension size -1 can be any value and is ambiguous") ∧
    DenseArray.matmul (dense_of [2, 0] []) (dense_of [0, 0] []) = .ok (dense_of [2, 0] []) ∧
    (NestedTensorFunction_matmul.forward AutogradContext.empty
        (.nested (unpacked_of [dense_of [2, 0] []])) (.dense (dense_of [0, 0] []))).2 =
      .ok (.nested (unpacked_of [dense_of [2, 0] []])) :=
  ⟨rfl, rfl, rfl, rfl⟩

/-- C2 at the batch 2, head 3 example: both operands are packed, of rank 4 and
nesting depth 2, with a leaf of shape (3, 4) resp. (4, 5) in every (batch, head)
slot. All sizes are concrete and match, so the guard of the packed path holds, and
the per-leaf shape computation then indexes entry 2 of the two-entry leaf shape of
`other`: the forward fails. Without the buffer the same operand is multiplied
leaf by leaf. -/
theorem C2_matmul_forward_depth2_fails :
    (packed_slots (full [3, 4] 1) 2 3).dim = 4 ∧
    (packed_slots (full [4, 5] 1) 2 3).dim = 4 ∧
    (packed_slots (full [3, 4] 1) 2 3).size = [some 2, some 3, some 3, some 4] ∧
    (packed_slots (full [4, 5] 1) 2 3).size = [some 2, some 3, some 4, some 5] ∧
    packed_nt_nt_guard (packed_slots (full [3, 4] 1) 2 3) (packed_slots (full [4, 5] 1) 2 3) =
      .ok true ∧
    (NestedTensorFunction_matmul.forward AutogradContext.empty
        (.nested (packed_slots (full [3, 4] 1) 2 3))
        (.nested (packed_slots (full [4, 5] 1) 2 3))).2 = .error .out_of_range ∧
    DenseArray.matmul (full [3, 4] 1) (full [4, 5] 1) = .ok (full [3, 5] 4) ∧
    ∃ r, (NestedTensorFunction_matmul.forward AutogradContext.empty
        (.nested ⟨none, (packed_slots (full [3, 4] 1) 2 3)._structure, full [3, 4] 1⟩)
        (.nested (packed_slots (full [4, 5] 1) 2 3))).2 = .ok (.nested r) ∧
      r._structure.flatten = List.replicate 6 (full [3, 5] 4) :=
  ⟨rfl, rfl, rfl, rfl, rfl, rfl, rfl, _, rfl, rfl⟩

/-- C3 at the example of the specification: `self` has leaves of shape (2, 4),
(5, 4), (1, 4), `other` has shape (4, 3) and the gradient is made of ones. The
forward succeeds, `self` has rank 3, and the backward stops at its first rank check
`self.dim() > 3`, whose message asks for at least 3 dimensions. -/
theorem C3_matmul_backward_rank3_fails :
    (packed_of [full [2, 4] 1, full [5, 4] 1, full [1, 4] 1]).dim = 3 ∧
    (∃ r, (NestedTensorFunction_matmul.forward AutogradContext.empty
        (.nested (packed_of [full [2, 4] 1, full [5, 4] 1, full [1, 4] 1]))
        (.dense (full [4, 3] 1))).2 = .ok r) ∧
    Tensor.requires_grad (.nested (packed_of [full [2, 3] 1, full [5, 3] 1, full [1, 3] 1])) = false ∧
    NestedTensorFunction_matmul.backward
        (matmul_saved (.nested (packed_of [full [2, 4] 1, full [5, 4] 1, full [1, 4] 1]))
          (.dense (full [4, 3] 1)))
        [.nested (packed_of [full [2, 3] 1, full [5, 3] 1, full [1, 3] 1])] =
      .error (.torch_check "NT self must be at least 3-dim.") :=
  ⟨rfl, ⟨_, rfl⟩, rfl, rfl⟩

/-- C4 at concrete inputs. First part, with `alpha = 2`, `beta = 3`, `input = [10, 20]`,
leaves `[[1, 2], [3, 4]]` and `[[5, 6]]` and `other = [[1, 1], [0, 1]]`: the packed
path and the leaf-wise path both return `2 * input + 3 * (leaf @ other)`, because
the scalars reach the library's `addmm` in the order (alpha, beta) while the library
reads its fourth argument as the factor of `input`; the specification's value
`2 * (leaf @ other) + 3 * input` is different. Second part, with both scalars 1 and
an `input` of the leaves' own shape (2, 2) over two leaves: the leaf-wise path
returns `leaf @ other + input` for each leaf, and the packed path fails, since
`input` cannot be broadcast to the four stacked rows. -/
theorem C4_addmm_forward_diverges :
    ((∃ r, (NestedTensorFunction_addmm.forward AutogradContext.empty
          (.dense (dense_of [2] [10, 20]))
          (.nested (packed_of [dense_of [2, 2] [1, 2, 3, 4], dense_of [1, 2] [5, 6]]))
          (.dense (dense_of [2, 2] [1, 1, 0, 1])) 2 3).2 = .ok (.nested r) ∧
        r._structure.flatten = [dense_of [2, 2] [23, 49, 29, 61], dense_of [1, 2] [35, 73]]) ∧
      (∃ r, (NestedTensorFunction_addmm.forward AutogradContext.empty
          (.dense (dense_of [2] [10, 20]))
          (.nested (unpacked_of [dense_of [2, 2] [1, 2, 3, 4], dense_of [1, 2] [5, 6]]))
          (.dense (dense_of [2, 2] [1, 1, 0, 1])) 2 3).2 = .ok (.nested r) ∧
        r._structure.flatten = [dense_of [2, 2] [23, 49, 29, 61], dense_of [1, 2] [35, 73]]) ∧
      addmm_leaf_spec (dense_of [2] [10, 20]) (dense_of [2, 2] [1, 2, 3, 4])
          (dense_of [2, 2] [1, 1, 0, 1]) 2 3 = .ok (dense_of [2, 2] [32, 66, 36, 74]) ∧
      addmm_leaf_spec (dense_of [2] [10, 20]) (dense_of [1, 2] [5, 6])
          (dense_of [2, 2] [1, 1, 0, 1]) 2 3 = .ok (dense_of [1, 2] [40, 82])) ∧
    ((NestedTensorFunction_addmm.forward AutogradContext.empty
          (.dense (dense_of [2, 2] [10, 20, 30, 40]))
          (.nested (packed_of [dense_of [2, 2] [1, 2, 3, 4], dense_of [2, 2] [1, 2, 3, 4]]))
          (.dense (dense_of [2, 2] [1, 1, 0, 1])) 1 1).2 =
        .error (.library "The expanded size of the tensor must match the existing size") ∧
      addmm_leaf_spec (dense_of [2, 2] [10, 20, 30, 40]) (dense_of [2, 2] [1, 2, 3, 4])
          (dense_of [2, 2] [1, 1, 0, 1]) 1 1 = .ok (dense_of [2, 2] [11, 23, 33, 47]) ∧
      (∃ r, (NestedTensorFunction_addmm.forward AutogradContext.empty
          (.dense (dense_of [2, 2] [10, 20, 30, 40]))
          (.nested (unpacked_of [dense_of [2, 2] [1, 2, 3, 4], dense_of [2, 2] [1, 2, 3, 4]]))
          (.dense (dense_of [2, 2] [1, 1, 0, 1])) 1 1).2 = .ok (.nested r) ∧
        r._structure.flatten =
          [dense_of [2, 2] [11, 23, 33, 47], dense_of [2, 2] [11, 23, 33, 47]])) :=
  ⟨⟨⟨_, rfl, rfl⟩, ⟨_, rfl, rfl⟩, rfl, rfl⟩, rfl, rfl, _, rfl, rfl⟩

/-- C8 at a concrete call: with `input = [10, 20, 30]`, `beta = 3` and a gradient of
ones, the backward succeeds and its first gradient is the dense array
`input * beta = [30, 60, 90]`, whereas `beta * grad` is the nested tensor whose
leaves hold 3 everywhere. -/
theorem C8_addmm_backward_grad_input_is_scaled_input :
    (∃ g_self g_other, NestedTensorFunction_addmm.backward
        (addmm_saved (.dense (dense_of [3] [10, 20, 30]))
          (.nested (packed_of [dense_of [2, 2] [1, 2, 3, 4], dense_of [1, 2] [5, 6]]))
          (.dense (dense_of [2, 3] [1, 1, 0, 0, 1, 2])) 2 3)
        [.nested (packed_of [full [2, 3] 1, full [1, 3] 1])] =
      .ok [some (.dense (dense_of [3] [30, 60, 90])), some g_self, some g_other, none, none]) ∧
    (∃ r, at_mul (.nested (packed_of [full [2, 3] 1, full [1, 3] 1])) 3 = .ok (.nested r) ∧
      r._structure.flatten = [full [2, 3] 3, full [1, 3] 3]) :=
  ⟨⟨_, _, rfl⟩, _, rfl, rfl⟩

/-! ### Backward of `matmul` with two nested operands -/

/-- C10: with nested `self` and `other` saved in the context and a single gradient
that does not require grad, `NestedTensorFunction_matmul::backward` passes all its
checks when both ranks are at least 4 and then computes exactly
`[grad @ transpose(other, last two dims), transpose(self, last two dims) @ grad]`,
so every successful call returns exactly these two gradients; and when either rank
is below 4 the call fails on a rank check, whatever the list of gradients. -/
theorem C10_matmul_backward_both_nested (ctx : AutogradContext) (self other : NestedTensor)
    (grad : Tensor)
    (hs : ctx.saved_data "0" = .tensor (.nested self))
    (ho : ctx.saved_data "1" = .tensor (.nested other))
    (hg : grad.requires_grad = false) :
    (4 ≤ self.dim → 4 ≤ other.dim →
      NestedTensorFunction_matmul.backward ctx [grad] =
          (do
            let other_t ← (Tensor.nested other).transpose (other.dim - 2) (other.dim - 1)
            let grad_self ← at_matmul grad other_t
            let self_t ← (Tensor.nested self).transpose (self.dim - 2) (self.dim - 1)
            let grad_other ← at_matmul self_t grad
            pure [some grad_self, some grad_other]) ∧
        ∀ outs, NestedTensorFunction_matmul.backward ctx [grad] = .ok outs →
          ∃ other_t self_t grad_self grad_other,
            (Tensor.nested other).transpose (other.dim - 2) (other.dim - 1) = .ok other_t ∧
            (Tensor.nested self).transpose (self.dim - 2) (self.dim - 1) = .ok self_t ∧
            at_matmul grad other_t = .ok grad_self ∧
            at_matmul self_t grad = .ok grad_other ∧
            outs = [some grad_self, some grad_other]) ∧
    (self.dim < 4 ∨ other.dim < 4 →
      (∃ msg, NestedTensorFunction_matmul.backward ctx [grad] = .error (.torch_check msg)) ∧
      ∀ grad_output, ∃ e, NestedTensorFunction_matmul.backward ctx grad_output = .error e) := by
  have hsd : (Tensor.nested self).dim = self.dim := rfl
  have hod : (Tensor.nested other).dim = other.dim := rfl
  refine ⟨fun h4s h4o => ?_, fun hlt => ?_⟩
  · have heq : NestedTensorFunction_matmul.backward ctx [grad] =
          (do
            let other_t ← (Tensor.nested other).transpose (other.dim - 2) (other.dim - 1)
            let grad_self ← at_matmul grad other_t
            let self_t ← (Tensor.nested self).transpose (self.dim - 2) (self.dim - 1)
            let grad_other ← at_matmul self_t grad
            pure [some grad_self, some grad_other]) := by
      have h1 : 3 < self.dim := h4s
      have h2 : 3 < other.dim := h4o
      simp [NestedTensorFunction_matmul.backward, variable_list_at, TORCH_CHECK, hs, ho, hg, IValue.toTensor,
        bind, Except.bind, pure, Except.pure, hsd, hod, is_nested_tensor_impl, h1, h2]
    refine ⟨heq, fun outs hout => ?_⟩
    rw [heq] at hout
    simp only [bind, Except.bind, pure, Except.pure] at hout
    cases hot : (Tensor.nested other).transpose (other.dim - 2) (other.dim - 1) with
    | error e => simp [hot] at hout
    | ok other_t =>
      simp only [hot] at hout
      cases hgs : at_matmul grad other_t with
      | error e => simp [hgs] at hout
      | ok grad_self =>
        simp only [hgs] at hout
        cases hst : (Tensor.nested self).transpose (self.dim - 2) (self.dim - 1) with
        | error e => simp [hst] at hout
        | ok self_t =>
          simp only [hst] at hout
          cases hgo : at_matmul self_t grad with
          | error e => simp [hgo] at hout
          | ok grad_other =>
            simp only [hgo, Except.ok.injEq] at hout
            exact ⟨other_t, self_t, grad_self, grad_other, rfl, rfl, hgs, hgo, hout.symm⟩
  · have key : ∀ g : Tensor, g.requires_grad = false →
        ∃ msg, NestedTensorFunction_matmul.backward ctx [g] = .error (.torch_check msg) := by
      intro g hgf
      by_cases h1 : 3 < self.dim
      · have h2 : ¬ 3 < other.dim := by omega
        simp [NestedTensorFunction_matmul.backward, variable_list_at, TORCH_CHECK, hs, ho, hgf, IValue.toTensor,
          bind, Except.bind, pure, Except.pure, hsd, hod, is_nested_tensor_impl, h1, h2]
      · simp [NestedTensorFunction_matmul.backward, variable_list_at, TORCH_CHECK, hs, ho, hgf, IValue.toTensor,
          bind, Except.bind, pure, Except.pure, hsd, hod, is_nested_tensor_impl, h1]
    refine ⟨key grad hg, fun grad_output => ?_⟩
    match grad_output with
    | [] => exact ⟨_, by simp [NestedTensorFunction_matmul.backward, variable_list_at, TORCH_CHECK, bind, Except.bind]; rfl⟩
    | [g] =>
      cases hgr : g.requires_grad with
      | false => obtain ⟨msg, hmsg⟩ := key g hgr; exact ⟨_, hmsg⟩
      | true =>
        exact ⟨_, by simp [NestedTensorFunction_matmul.backward, variable_list_at, TORCH_CHECK, bind, Except.bind, hgr, pure, Except.pure]; rfl⟩
    | g :: g1 :: gs =>
      exact ⟨_, by simp [NestedTensorFunction_matmul.backward, variable_list_at, TORCH_CHECK, bind, Except.bind]; rfl⟩

/-- C10 at a concrete call: both operands have rank 4 (batch 2, head 3, leaves of
shape (3, 4) and (4, 5)), the gradient has leaves of shape (3, 5); the backward
returns the two gradients, with leaves of shape (3, 4) and (4, 5). -/
theorem C10_matmul_backward_both_nested_witness :
    ((matmul_saved (.nested (unpacked_slots (full [3, 4] 1) 2 3))
          (.nested (unpacked_slots (full [4, 5] 1) 2 3))).saved_data "0" =
        .tensor (.nested (unpacked_slots (full [3, 4] 1) 2 3)) ∧
      (matmul_saved (.nested (unpacked_slots (full [3, 4] 1) 2 3))
          (.nested (unpacked_slots (full [4, 5] 1) 2 3))).saved_data "1" =
        .tensor (.nested (unpacked_slots (full [4, 5] 1) 2 3)) ∧
      Tensor.requires_grad (.nested (unpacked_slots (full [3, 5] 1) 2 3)) = false ∧
      4 ≤ (unpacked_slots (full [3, 4] 1) 2 3).dim ∧
      4 ≤ (unpacked_slots (full [4, 5] 1) 2 3).dim) ∧
    (∃ other_t self_t grad_self grad_other,
      (Tensor.nested (unpacked_slots (full [4, 5] 1) 2 3)).transpose
          ((unpacked_slots (full [4, 5] 1) 2 3).dim - 2)
          ((unpacked_slots (full [4, 5] 1) 2 3).dim - 1) = .ok other_t ∧
      (Tensor.nested (unpacked_slots (full [3, 4] 1) 2 3)).transpose
          ((unpacked_slots (full [3, 4] 1) 2 3).dim - 2)
          ((unpacked_slots (full [3, 4] 1) 2 3).dim - 1) = .ok self_t ∧
      at_matmul (.nested (unpacked_slots (full [3, 5] 1) 2 3)) other_t = .ok grad_self ∧
      at_matmul self_t (.nested (unpacked_slots (full [3, 5] 1) 2 3)) = .ok grad_other ∧
      [some (Tensor.nested (unpacked_slots (full [3, 4] 5) 2 3)),
        some (Tensor.nested (unpacked_slots (full [4, 5] 3) 2 3))] =
        [some grad_self, some grad_other]) :=
  ⟨⟨rfl, rfl, rfl, by decide, by decide⟩,
    ((C10_matmul_backward_both_nested
      (matmul_saved (.nested (unpacked_slots (full [3, 4] 1) 2 3))
        (.nested (unpacked_slots (full [4, 5] 1) 2 3)))
      (unpacked_slots (full [3, 4] 1) 2 3) (unpacked_slots (full [4, 5] 1) 2 3)
      (.nested (unpacked_slots (full [3, 5] 1) 2 3)) rfl rfl rfl).1 (by decide) (by decide)).2
      [some (.nested (unpacked_slots (full [3, 4] 5) 2 3)),
        some (.nested (unpacked_slots (full [4, 5] 3) 2 3))] rfl⟩

/-! ### No library call fails on a `TORCH_CHECK` of the embedded file -/

theorem NoCheck_ok {α : Type} (a : α) : NoCheck (Except.ok a : Except Error α) := by
  intro msg h; cases h

theorem NoCheck_pure {α : Type} (a : α) : NoCheck (Pure.pure a : Except Error α) := by
  intro msg h; cases h

theorem NoCheck_bind {α β : Type} {x : Except Error α} {f : α → Except Error β}
    (hx : NoCheck x) (hf : ∀ a, NoCheck (f a)) : NoCheck (x >>= f) := by
  intro msg h
  cases x with
  | error e =>
    have : e = .torch_check msg := by
      simpa [Bind.bind, Except.bind] using h
    exact hx msg (by rw [this])
  | ok a => exact hf a msg (by simpa [Bind.bind, Except.bind] using h)


theorem NoCheck_toTensor (v : IValue) : NoCheck v.toTensor := by
  intro msg h; cases v <;> simp [IValue.toTensor] at h

theorem NoCheck_toScalar (v : IValue) : NoCheck v.toScalar := by
  intro msg h; cases v <;> simp [IValue.toScalar] at h

theorem NoCheck_list_at (l : List Nat) (i : Nat) : NoCheck (list_at l i) := by
  intro msg h; unfold list_at at h; split at h <;> simp at h

theorem NoCheck_vector_at (l : List (Option Nat)) (i : Nat) : NoCheck (vector_at l i) := by
  intro msg h; unfold vector_at at h; split at h <;> simp at h

theorem NoCheck_size (t : DenseArray) (d : Nat) : NoCheck (t.size d) := by
  intro msg h; unfold DenseArray.size at h; split at h <;> simp at h

theorem NoCheck_dense_transpose (t : DenseArray) (d0 d1 : Nat) : NoCheck (t.transpose d0 d1) := by
  intro msg h; unfold DenseArray.transpose at h; split at h <;> simp at h

theorem NoCheck_infer_size (shape : List Int) (n : Nat) : NoCheck (infer_size shape n) := by
  intro msg h; unfold infer_size at h
  dsimp only at h
  repeat' split at h
  all_goals cases h

theorem NoCheck_reshape (t : DenseArray) (shape : List Int) : NoCheck (t.reshape shape) := by
  intro msg h; unfold DenseArray.reshape at h
  split at h
  · cases h
  · rename_i e he
    cases h
    exact NoCheck_infer_size _ _ msg he

theorem NoCheck_broadcast_shapes (a b : List Nat) : NoCheck (broadcast_shapes a b) := by
  intro msg h; unfold broadcast_shapes at h
  dsimp only at h
  repeat' split at h
  all_goals cases h

theorem NoCheck_batched_mm (ba bb : List Nat) (r k n : Nat) (a b : List Int) :
    NoCheck (batched_mm ba bb r k n a b) := by
  intro msg h; unfold batched_mm at h
  split at h
  · rename_i e he
    cases h
    exact NoCheck_broadcast_shapes _ _ msg he
  · cases h

theorem NoCheck_batched_matmul (sa sb : List Nat) (qa qb : Bool) (a b : List Int) :
    NoCheck (batched_matmul sa sb qa qb a b) := by
  intro msg h; unfold batched_matmul at h
  split at h
  · split at h
    · rename_i e he
      cases h
      exact NoCheck_batched_mm _ _ _ _ _ _ _ msg he
    · cases h
  · cases h

theorem NoCheck_dense_matmul (a b : DenseArray) : NoCheck (DenseArray.matmul a b) := by
  intro msg h; unfold DenseArray.matmul at h
  split at h
  all_goals try (cases h)
  all_goals try (split at h <;> cases h)
  exact NoCheck_batched_matmul _ _ _ _ _ _ msg h

theorem NoCheck_expand (t : DenseArray) (target : List Nat) : NoCheck (t.expand target) := by
  intro msg h; unfold DenseArray.expand at h
  repeat' split at h
  all_goals cases h

theorem NoCheck_add_ (self t : DenseArray) : NoCheck (self.add_ t) := by
  intro msg h; unfold DenseArray.add_ at h
  split at h
  · rename_i e he
    cases h
    exact NoCheck_expand _ _ msg he
  · cases h

namespace NestedNode

variable {α β γ δ : Type}

mutual
theorem NoCheck_map (f : α → Except Error β) (hf : ∀ a, NoCheck (f a)) :
    ∀ t : NestedNode α, NoCheck (map f t)
  | .leaf a => by
    intro msg h; unfold map at h
    split at h
    · cases h
    · rename_i e he
      cases h
      exact hf a msg he
  | .node cs => by
    intro msg h; unfold map at h
    split at h
    · cases h
    · rename_i e he
      cases h
      exact NoCheck_map_children f hf cs msg he
theorem NoCheck_map_children (f : α → Except Error β) (hf : ∀ a, NoCheck (f a)) :
    ∀ cs : List (NestedNode α), NoCheck (map_children f cs)
  | [] => by intro msg h; unfold map_children at h; cases h
  | c :: cs => by
    intro msg h; unfold map_children at h
    split at h
    · rename_i e he
      cases h
      exact NoCheck_map f hf c msg he
    · split at h
      · cases h
      · rename_i e he
        cases h
        exact NoCheck_map_children f hf cs msg he
end

end NestedNode

namespace NestedNode

variable {α β γ δ : Type}

mutual
theorem NoCheck_map2 (f : α → β → Except Error γ) (hf : ∀ a b, NoCheck (f a b)) :
    ∀ (s : NestedNode α) (t : NestedNode β), NoCheck (map2 f s t)
  | .leaf a, .leaf b => by
    intro msg h; unfold map2 at h
    split at h
    · cases h
    · rename_i e he
      cases h
      exact hf a b msg he
  | .node as, .node bs => by
    intro msg h; unfold map2 at h
    split at h
    · split at h
      · cases h
      · rename_i e he
        cases h
        exact NoCheck_map2_children f hf as bs msg he
    · cases h
  | .leaf _, .node _ => by intro msg h; unfold map2 at h; cases h
  | .node _, .leaf _ => by intro msg h; unfold map2 at h; cases h
theorem NoCheck_map2_children (f : α → β → Except Error γ) (hf : ∀ a b, NoCheck (f a b)) :
    ∀ (as : List (NestedNode α)) (bs : List (NestedNode β)), NoCheck (map2_children f as bs)
  | [], [] => by intro msg h; unfold map2_children at h; cases h
  | a :: as, b :: bs => by
    intro msg h; unfold map2_children at h
    split at h
    · rename_i e he
      cases h
      exact NoCheck_map2 f hf a b msg he
    · split at h
      · cases h
      · rename_i e he
        cases h
        exact NoCheck_map2_children f hf as bs msg he
  | [], _ :: _ => by intro msg h; unfold map2_children at h; cases h
  | _ :: _, [] => by intro msg h; unfold map2_children at h; cases h
end

mutual
theorem NoCheck_map3 (f : α → β → γ → Except Error δ) (hf : ∀ a b c, NoCheck (f a b c)) :
    ∀ (s : NestedNode α) (t : NestedNode β) (u : NestedNode γ), NoCheck (map3 f s t u)
  | .leaf a, .leaf b, .leaf c => by
    intro msg h; unfold map3 at h
    split at h
    · cases h
    · rename_i e he
      cases h
      exact hf a b c msg he
  | .node as, .node bs, .node cs => by
    intro msg h; unfold map3 at h
    split at h
    · split at h
      · cases h
      · rename_i e he
        cases h
        exact NoCheck_map3_children f hf as bs cs msg he
    · cases h
  | .leaf _, .leaf _, .node _ => by intro msg h; unfold map3 at h; cases h
  | .leaf _, .node _, _ => by intro msg h; unfold map3 at h; cases h
  | .node _, .leaf _, _ => by intro msg h; unfold map3 at h; cases h
  | .node _, .node _, .leaf _ => by intro msg h; unfold map3 at h; cases h
theorem NoCheck_map3_children (f : α → β → γ → Except Error δ) (hf : ∀ a b c, NoCheck (f a b c)) :
    ∀ (as : List (NestedNode α)) (bs : List (NestedNode β)) (cs : List (NestedNode γ)),
      NoCheck (map3_children f as bs cs)
  | [], [], [] => by intro msg h; unfold map3_children at h; cases h
  | a :: as, b :: bs, c :: cs => by
    intro msg h; unfold map3_children at h
    split at h
    · rename_i e he
      cases h
      exact NoCheck_map3 f hf a b c msg he
    · split at h
      · cases h
      · rename_i e he
        cases h
        exact NoCheck_map3_children f hf as bs cs msg he
  | [], [], _ :: _ => by intro msg h; unfold map3_children at h; cases h
  | [], _ :: _, _ => by intro msg h; unfold map3_children at h; cases h
  | _ :: _, [], _ => by intro msg h; unfold map3_children at h; cases h
  | _ :: _, _ :: _, [] => by intro msg h; unfold map3_children at h; cases h
end

mutual
theorem NoCheck_reduce (f : α → Except Error β → Except Error β)
    (hf : ∀ a acc, NoCheck acc → NoCheck (f a acc)) :
    ∀ (t : NestedNode α) (acc : Except Error β), NoCheck acc → NoCheck (reduce f t acc)
  | .leaf a, acc, hacc => by unfold reduce; exact hf a acc hacc
  | .node cs, acc, hacc => by unfold reduce; exact NoCheck_reduce_children f hf cs acc hacc
theorem NoCheck_reduce_children (f : α → Except Error β → Except Error β)
    (hf : ∀ a acc, NoCheck acc → NoCheck (f a acc)) :
    ∀ (cs : List (NestedNode α)) (acc : Except Error β), NoCheck acc →
      NoCheck (reduce_children f cs acc)
  | [], acc, hacc => by unfold reduce_children; exact hacc
  | c :: cs, acc, hacc => by
    unfold reduce_children
    exact NoCheck_reduce_children f hf cs _ (NoCheck_reduce f hf c acc hacc)
end

end NestedNode

theorem NoCheck_build_structure (buffer : DenseArray) (nested_size : SizeNode) :
    NoCheck (build_structure buffer nested_size) := by
  intro msg h; unfold build_structure at h
  split at h <;> cases h

theorem NoCheck_map_nested_tensor (f : DenseArray → Except Error DenseArray)
    (hf : ∀ a, NoCheck (f a)) (self : NestedTensor) : NoCheck (map_nested_tensor f self) := by
  intro msg h; unfold map_nested_tensor at h
  split at h
  · cases h
  · rename_i e he
    cases h
    exact NestedNode.NoCheck_map f hf _ msg he

theorem NoCheck_map_nested_tensor2 (f : DenseArray → DenseArray → Except Error DenseArray)
    (hf : ∀ a b, NoCheck (f a b)) (self other : NestedTensor) :
    NoCheck (map_nested_tensor2 f self other) := by
  intro msg h; unfold map_nested_tensor2 at h
  split at h
  · cases h
  · rename_i e he
    cases h
    exact NestedNode.NoCheck_map2 f hf _ _ msg he

theorem NoCheck_apply_matmul_out (r : TensorNode) (s o : NestedTensor) :
    NoCheck (apply_matmul_out r s o) := by
  intro msg h; unfold apply_matmul_out at h
  split at h
  · rename_i e he
    cases h
    refine NestedNode.NoCheck_map3 _ (fun a b c => ?_) _ _ _ msg he
    intro msg1 h1
    split at h1
    · cases h1
    · rename_i e1 he1
      cases h1
      exact NoCheck_dense_matmul _ _ msg1 he1
  · dsimp only at h
    split at h
    · cases h
    · rename_i e he
      cases h
      exact NestedNode.NoCheck_map _ (fun a => NoCheck_ok _) _ msg he

theorem NoCheck_packed_nt_t_guard (s : NestedTensor) (o : DenseArray) :
    NoCheck (packed_nt_t_guard s o) := by
  intro msg h; unfold packed_nt_t_guard at h
  simp only [bind, Except.bind, pure, Except.pure] at h
  repeat' split at h
  all_goals first
    | (cases h; done)
    | (cases h; exact NoCheck_vector_at _ _ _ (by assumption))
    | (cases h; exact NoCheck_size _ _ _ (by assumption))

theorem NoCheck_packed_nt_nt_guard (s o : NestedTensor) :
    NoCheck (packed_nt_nt_guard s o) := by
  intro msg h; unfold packed_nt_nt_guard at h
  simp only [bind, Except.bind, pure, Except.pure] at h
  repeat' split at h
  all_goals first
    | (cases h; done)
    | (cases h; exact NoCheck_vector_at _ _ _ (by assumption))

theorem NoCheck_optional_value (o : Option DenseArray) : NoCheck (optional_value o) := by
  intro msg h; cases o <;> simp [optional_value] at h

theorem NoCheck_variable_list_at (l : List Tensor) (i : Nat) : NoCheck (variable_list_at l i) := by
  intro msg h; unfold variable_list_at at h; split at h <;> cases h

theorem NoCheck_get_nested_tensor_impl (t : Tensor) : NoCheck (get_nested_tensor_impl t) := by
  intro msg h; cases t <;> simp [get_nested_tensor_impl] at h

theorem NoCheck_matmul_forward (ctx : AutogradContext) (self other : Tensor) :
    NoCheck (NestedTensorFunction_matmul.forward ctx self other).2 := by
  unfold NestedTensorFunction_matmul.forward
  dsimp only
  refine NoCheck_bind (NoCheck_get_nested_tensor_impl _) (fun impl_self => ?_)
  cases other with
  | nested impl_other =>
    dsimp only
    refine NoCheck_bind (NoCheck_packed_nt_nt_guard _ _) (fun g => ?_)
    split
    · refine NoCheck_bind (NestedNode.NoCheck_map2 _ (fun a b => ?_) _ _) (fun sz => ?_)
      · exact NoCheck_bind (NoCheck_list_at _ _) (fun _ =>
          NoCheck_bind (NoCheck_list_at _ _) (fun _ =>
            NoCheck_bind (NoCheck_list_at _ _) (fun _ => NoCheck_pure _)))
      · refine NoCheck_bind (NoCheck_build_structure _ _) (fun r => ?_)
        refine NoCheck_bind (NoCheck_apply_matmul_out _ _ _) (fun p => ?_)
        cases p
        exact NoCheck_pure _
    · exact NoCheck_map_nested_tensor2 _ (fun a b => NoCheck_dense_matmul a b) _ _
  | dense o =>
    dsimp only
    split
    · refine NoCheck_bind (NoCheck_packed_nt_t_guard _ _) (fun g => ?_)
      split
      · refine NoCheck_bind (NestedNode.NoCheck_map _ (fun a => ?_) _) (fun sz => ?_)
        · exact NoCheck_bind (NoCheck_list_at _ _) (fun _ =>
            NoCheck_bind (NoCheck_size _ _) (fun _ => NoCheck_pure _))
        · refine NoCheck_bind (NoCheck_optional_value _) (fun b => ?_)
          refine NoCheck_bind (NoCheck_size _ _) (fun rows => ?_)
          refine NoCheck_bind (NoCheck_reshape _ _) (fun lhs => ?_)
          refine NoCheck_bind (NoCheck_dense_matmul _ _) (fun product => ?_)
          refine NoCheck_bind (NoCheck_reshape _ _) (fun flat => ?_)
          refine NoCheck_bind (NoCheck_build_structure _ _) (fun tree => ?_)
          exact NoCheck_pure _
      · exact NoCheck_map_nested_tensor _ (fun a => NoCheck_dense_matmul a _) _
    · exact NoCheck_map_nested_tensor _ (fun a => NoCheck_dense_matmul a _) _

theorem NoCheck_tensor_transpose (t : Tensor) (d0 d1 : Nat) : NoCheck (t.transpose d0 d1) := by
  intro msg h
  cases t with
  | dense a =>
    simp only [Tensor.transpose] at h
    split at h
    · cases h
    · rename_i e he
      cases h
      exact NoCheck_dense_transpose _ _ _ msg he
  | nested impl =>
    simp only [Tensor.transpose] at h
    split at h
    · exact NoCheck_map_nested_tensor _ (fun a => NoCheck_dense_transpose a _ _) _ msg h
    · cases h

theorem NoCheck_NestedTensor_matmul (a b : Tensor) : NoCheck (NestedTensor_matmul a b) :=
  NoCheck_matmul_forward _ a b

theorem NoCheck_at_matmul (a b : Tensor) : NoCheck (at_matmul a b) := by
  intro msg h
  unfold at_matmul at h
  split at h
  · split at h
    · cases h
    · rename_i e he
      cases h
      exact NoCheck_dense_matmul _ _ msg he
  · exact NoCheck_NestedTensor_matmul _ _ msg h

theorem NoCheck_at_mul (t : Tensor) (s : Int) : NoCheck (at_mul t s) := by
  intro msg h
  cases t with
  | dense a => simp [at_mul] at h
  | nested impl =>
    simp only [at_mul] at h
    exact NoCheck_map_nested_tensor _ (fun a => NoCheck_ok _) _ msg h

theorem NoCheck_apply_nested_tensor_add_ (g : DenseArray) (t : Tensor) :
    NoCheck (apply_nested_tensor_add_ g t) := by
  intro msg h
  unfold apply_nested_tensor_add_ at h
  split at h
  · rename_i e he
    cases h
    exact NoCheck_get_nested_tensor_impl _ msg he
  · refine NestedNode.NoCheck_reduce _ (fun a acc hacc => ?_) _ _ (NoCheck_ok _) msg h
    intro msg1 h1
    split at h1
    · exact NoCheck_add_ _ _ msg1 h1
    · cases h1
      exact hacc msg1 rfl

theorem NoCheck_zeros_like_add_ (other t : Tensor) : NoCheck (zeros_like_add_ other t) := by
  intro msg h
  cases other with
  | dense o =>
    simp only [zeros_like_add_] at h
    split at h
    · cases h
    · rename_i e he
      cases h
      exact NoCheck_apply_nested_tensor_add_ _ _ msg he
  | nested o => simp [zeros_like_add_] at h

theorem NoCheck_mm_mat1_backward (grad other : Tensor) (alpha : Int) :
    NoCheck (mm_mat1_backward grad other alpha) := by
  unfold mm_mat1_backward
  exact NoCheck_bind (NoCheck_tensor_transpose _ _ _) (fun _ =>
    NoCheck_bind (NoCheck_at_matmul _ _) (fun _ => NoCheck_at_mul _ _))

theorem Except_ok_bind {α β : Type} (a : α) (f : α → Except Error β) :
    ((Except.ok a : Except Error α) >>= f) = f a := rfl

theorem TORCH_CHECK_true (msg : String) : TORCH_CHECK true msg = .ok () := rfl

theorem TORCH_CHECK_false (msg : String) :
    TORCH_CHECK false msg = .error (.torch_check msg) := rfl

/-- After its two checks, `NestedTensorFunction_addmm::backward` raises no further
check of its own. -/
theorem addmm_backward_no_further_check (ctx : AutogradContext) (g : Tensor)
    (hg : g.requires_grad = false) :
    NoCheck (NestedTensorFunction_addmm.backward ctx [g]) := by
  have h0 : variable_list_at [g] 0 = .ok g := rfl
  have h1 : decide ([g].length = 1) = true := rfl
  unfold NestedTensorFunction_addmm.backward
  simp only [h0, h1, hg, Bool.not_false, TORCH_CHECK_true, Except_ok_bind]
  refine NoCheck_bind (NoCheck_toTensor _) (fun input => ?_)
  refine NoCheck_bind (NoCheck_toTensor _) (fun self => ?_)
  refine NoCheck_bind (NoCheck_toTensor _) (fun other => ?_)
  refine NoCheck_bind (NoCheck_toScalar _) (fun alpha => ?_)
  refine NoCheck_bind (NoCheck_toScalar _) (fun beta => ?_)
  refine NoCheck_bind (NoCheck_tensor_transpose _ _ _) (fun self_t => ?_)
  refine NoCheck_bind (NoCheck_at_matmul _ _) (fun product => ?_)
  refine NoCheck_bind (NoCheck_at_mul _ _) (fun grad_other_nt => ?_)
  refine NoCheck_bind (NoCheck_zeros_like_add_ _ _) (fun grad_other => ?_)
  refine NoCheck_bind (NoCheck_at_mul _ _) (fun grad_input => ?_)
  refine NoCheck_bind (NoCheck_mm_mat1_backward _ _ _) (fun grad_self => ?_)
  exact NoCheck_pure _

/-- C6: both backward passes fail on their first check for every list of output
gradients whose length is not 1 and fail on their second check for every single
gradient that requires grad, so that no gradients are returned; and a check of
`NestedTensorFunction_addmm::backward` fails exactly in these two cases. -/
theorem C6_backward_gradient_checks (ctx : AutogradContext) (grad_output : List Tensor) :
    (grad_output.length ≠ 1 →
      NestedTensorFunction_matmul.backward ctx grad_output =
          .error (.torch_check "Expected grad_output of size 1 for addmm.") ∧
        NestedTensorFunction_addmm.backward ctx grad_output =
          .error (.torch_check "Expected grad_output of size 1 for addmm.")) ∧
    (∀ g, grad_output = [g] → g.requires_grad = true →
      NestedTensorFunction_matmul.backward ctx grad_output =
          .error (.torch_check "addmm does not support double backward.") ∧
        NestedTensorFunction_addmm.backward ctx grad_output =
          .error (.torch_check "addmm does not support double backward.")) ∧
    ((∃ msg, NestedTensorFunction_addmm.backward ctx grad_output = .error (.torch_check msg)) ↔
      (grad_output.length ≠ 1 ∨ ∃ g, grad_output = [g] ∧ g.requires_grad = true)) := by
  have hlen : grad_output.length ≠ 1 →
      NestedTensorFunction_matmul.backward ctx grad_output =
          .error (.torch_check "Expected grad_output of size 1 for addmm.") ∧
        NestedTensorFunction_addmm.backward ctx grad_output =
          .error (.torch_check "Expected grad_output of size 1 for addmm.") := by
    intro h
    have hd : decide (grad_output.length = 1) = false := by simpa using h
    constructor
    · unfold NestedTensorFunction_matmul.backward
      rw [hd, TORCH_CHECK_false]; rfl
    · unfold NestedTensorFunction_addmm.backward
      rw [hd, TORCH_CHECK_false]; rfl
  have hreq : ∀ g, grad_output = [g] → g.requires_grad = true →
      NestedTensorFunction_matmul.backward ctx grad_output =
          .error (.torch_check "addmm does not support double backward.") ∧
        NestedTensorFunction_addmm.backward ctx grad_output =
          .error (.torch_check "addmm does not support double backward.") := by
    intro g hgo hg
    subst hgo
    have h0 : variable_list_at [g] 0 = .ok g := rfl
    have h1 : decide ([g].length = 1) = true := rfl
    constructor
    · unfold NestedTensorFunction_matmul.backward
      simp only [h0, h1, hg, Bool.not_true, TORCH_CHECK_true, TORCH_CHECK_false, Except_ok_bind]
      rfl
    · unfold NestedTensorFunction_addmm.backward
      simp only [h0, h1, hg, Bool.not_true, TORCH_CHECK_true, TORCH_CHECK_false, Except_ok_bind]
      rfl
  refine ⟨hlen, hreq, ⟨fun ⟨msg, hmsg⟩ => ?_, fun h => ?_⟩⟩
  · by_cases hl : grad_output.length = 1
    · right
      match grad_output, hl with
      | [g], _ =>
        refine ⟨g, rfl, ?_⟩
        cases hg : g.requires_grad with
        | true => rfl
        | false => exact absurd hmsg (addmm_backward_no_further_check ctx g hg msg)
    · exact Or.inl hl
  · rcases h with h | ⟨g, hgo, hg⟩
    · exact ⟨_, (hlen h).2⟩
    · exact ⟨_, (hreq g hgo hg).2⟩

/-! ### Traversals of a tree of nesting depth 1 -/

namespace NestedNode

variable {α β γ : Type}

theorem flatten_children_leaves (ls : List α) :
    flatten_children (ls.map NestedNode.leaf) = ls := by
  induction ls with
  | nil => rfl
  | cons a as ih => simp [flatten_children, flatten, ih]

theorem flatten_node_leaves (ls : List α) : flatten (.node (ls.map NestedNode.leaf)) = ls := by
  simp [flatten, flatten_children_leaves]

theorem height_children_leaves (ls : List α) :
    height_children (ls.map NestedNode.leaf) = 0 := by
  induction ls with
  | nil => rfl
  | cons a as ih => simp [height_children, height, ih]

theorem height_node_leaves (ls : List α) : height (.node (ls.map NestedNode.leaf)) = 1 := by
  simp [height, height_children_leaves]

theorem map_children_leaves (f : α → Except Error β) (g : α → β) (ls : List α)
    (h : ∀ a ∈ ls, f a = .ok (g a)) :
    map_children f (ls.map NestedNode.leaf) = .ok (ls.map (fun a => NestedNode.leaf (g a))) := by
  induction ls with
  | nil => rfl
  | cons a as ih =>
    have ha : f a = .ok (g a) := h a (by simp)
    have has : ∀ x ∈ as, f x = .ok (g x) := fun x hx => h x (by simp [hx])
    simp [map_children, map, ha, ih has]

theorem map_node_leaves (f : α → Except Error β) (g : α → β) (ls : List α)
    (h : ∀ a ∈ ls, f a = .ok (g a)) :
    map f (.node (ls.map NestedNode.leaf)) =
      .ok (.node (ls.map (fun a => NestedNode.leaf (g a)))) := by
  simp [map, map_children_leaves f g ls h]

theorem map_children_leaves_ok (f : α → Except Error β) :
    ∀ (ls : List α) (out : List (NestedNode β)),
      map_children f (ls.map NestedNode.leaf) = .ok out →
      ∃ cs, out = cs.map NestedNode.leaf ∧ List.Forall₂ (fun a c => f a = .ok c) ls cs
  | [], out, h => by
    simp [map_children] at h
    exact ⟨[], by simp [h], List.Forall₂.nil⟩
  | a :: as, out, h => by
    simp only [List.map_cons, map_children, map] at h
    cases hfa : f a with
    | error e => simp [hfa] at h
    | ok c =>
      simp only [hfa] at h
      cases hrest : map_children f (as.map NestedNode.leaf) with
      | error e => simp [hrest] at h
      | ok rest =>
        simp only [hrest, Except.ok.injEq] at h
        obtain ⟨cs, hcs, hrel⟩ := map_children_leaves_ok f as rest hrest
        exact ⟨c :: cs, by simp [← h, hcs], List.Forall₂.cons hfa hrel⟩

theorem map_node_leaves_ok (f : α → Except Error β) (ls : List α) (out : NestedNode β)
    (h : map f (.node (ls.map NestedNode.leaf)) = .ok out) :
    ∃ cs, out = .node (cs.map NestedNode.leaf) ∧ List.Forall₂ (fun a c => f a = .ok c) ls cs := by
  simp only [map] at h
  cases hc : map_children f (ls.map NestedNode.leaf) with
  | error e => simp [hc] at h
  | ok rest =>
    simp only [hc, Except.ok.injEq] at h
    obtain ⟨cs, hcs, hrel⟩ := map_children_leaves_ok f ls rest hc
    exact ⟨cs, by simp [← h, hcs], hrel⟩

theorem map2_children_leaves_ok (f : α → β → Except Error γ) :
    ∀ (as : List α) (bs : List β) (out : List (NestedNode γ)),
      map2_children f (as.map NestedNode.leaf) (bs.map NestedNode.leaf) = .ok out →
      ∃ cs, out = cs.map NestedNode.leaf ∧
        List.Forall₂ (fun (ab : α × β) c => f ab.1 ab.2 = .ok c) (as.zip bs) cs ∧
        as.length = bs.length
  | [], [], out, h => by
    simp [map2_children] at h
    exact ⟨[], by simp [h], List.Forall₂.nil, rfl⟩
  | [], _ :: _, out, h => by simp [map2_children] at h
  | _ :: _, [], out, h => by simp [map2_children] at h
  | a :: as, b :: bs, out, h => by
    simp only [List.map_cons, map2_children, map2] at h
    cases hfa : f a b with
    | error e => simp [hfa] at h
    | ok c =>
      simp only [hfa] at h
      cases hrest : map2_children f (as.map NestedNode.leaf) (bs.map NestedNode.leaf) with
      | error e => simp [hrest] at h
      | ok rest =>
        simp only [hrest, Except.ok.injEq] at h
        obtain ⟨cs, hcs, hrel, hlen⟩ := map2_children_leaves_ok f as bs rest hrest
        exact ⟨c :: cs, by simp [← h, hcs], List.Forall₂.cons hfa hrel, by simp [hlen]⟩

theorem map2_node_leaves_ok (f : α → β → Except Error γ) (as : List α) (bs : List β)
    (out : NestedNode γ)
    (h : map2 f (.node (as.map NestedNode.leaf)) (.node (bs.map NestedNode.leaf)) = .ok out) :
    ∃ cs, out = .node (cs.map NestedNode.leaf) ∧
      List.Forall₂ (fun (ab : α × β) c => f ab.1 ab.2 = .ok c) (as.zip bs) cs ∧
      as.length = bs.length := by
  simp only [map2] at h
  split at h
  · cases hc : map2_children f (as.map NestedNode.leaf) (bs.map NestedNode.leaf) with
    | error e => simp [hc] at h
    | ok rest =>
      simp only [hc, Except.ok.injEq] at h
      obtain ⟨cs, hcs, hrel, hlen⟩ := map2_children_leaves_ok f as bs rest hc
      exact ⟨cs, by simp [← h, hcs], hrel, hlen⟩
  · cases h

end NestedNode

/-! ### The dense product of stacked matrices -/

theorem rows_of_append (k : Nat) :
    ∀ (r1 r2 : Nat) (a1 a2 : List Int), a1.length = r1 * k →
      rows_of (r1 + r2) k (a1 ++ a2) = rows_of r1 k a1 ++ rows_of r2 k a2
  | 0, r2, a1, a2, h => by
    have : a1 = [] := List.eq_nil_of_length_eq_zero (by simpa using h)
    simp [this, rows_of]
  | r1 + 1, r2, a1, a2, h => by
    have hk : k ≤ a1.length := by
      rw [h, Nat.add_mul]; omega
    have h1 : (a1.drop k).length = r1 * k := by
      rw [List.length_drop, h, Nat.add_mul]; omega
    have hsucc : r1 + 1 + r2 = (r1 + r2) + 1 := by omega
    rw [hsucc]
    simp only [rows_of]
    rw [List.take_append_of_le_length hk, List.drop_append_of_le_length hk,
      rows_of_append k r1 r2 (a1.drop k) a2 h1]
    simp

theorem mm_data_append (k n r1 r2 : Nat) (a1 a2 b : List Int) (h : a1.length = r1 * k) :
    mm_data (r1 + r2) k n (a1 ++ a2) b = mm_data r1 k n a1 b ++ mm_data r2 k n a2 b := by
  simp [mm_data, rows_of_append k r1 r2 a1 a2 h]

theorem rows_of_length (k : Nat) : ∀ (r : Nat) (a : List Int), (rows_of r k a).length = r
  | 0, _ => rfl
  | r + 1, a => by simp [rows_of, rows_of_length k r]

theorem mm_data_length (r k n : Nat) (a b : List Int) : (mm_data r k n a b).length = r * n := by
  unfold mm_data
  generalize hrows : rows_of r k a = rs
  have hlen : rs.length = r := by rw [← hrows]; exact rows_of_length k r a
  clear hrows
  induction rs generalizing r with
  | nil => simp at hlen; simp [← hlen]
  | cons x xs ih =>
    cases r with
    | zero => simp at hlen
    | succ r =>
      have := ih r (by simpa using hlen)
      simp [List.flatMap_cons, this, Nat.add_mul, Nat.add_comm]

/-- Total number of rows of a list of matrix leaves. -/
theorem matrix_leaves_cons {k : Nat} {t : DenseArray} {ts : List DenseArray}
    (h : MatrixLeaves k (t :: ts)) :
    (t.sizes = [rows t, k] ∧ t.data.length = rows t * k) ∧ MatrixLeaves k ts := by
  constructor
  · obtain ⟨r, hs, hd⟩ := h t (by simp)
    simp [rows, hs, hd]
  · intro x hx
    exact h x (by simp [hx])

theorem flatten_data_length (k : Nat) (leaves : List DenseArray) (h : MatrixLeaves k leaves) :
    ((leaves.map (fun t => t.data)).flatten).length = ((leaves.map rows).sum) * k := by
  induction leaves with
  | nil => simp
  | cons t ts ih =>
    obtain ⟨⟨_, hd⟩, hts⟩ := matrix_leaves_cons h
    simp [ih hts, hd, Nat.add_mul]

/-- The product of the stacked leaves with `b` is the stack of the products of the
leaves with `b`. -/
theorem mm_data_flatten (k n : Nat) (b : List Int) (leaves : List DenseArray)
    (h : MatrixLeaves k leaves) :
    mm_data ((leaves.map rows).sum) k n ((leaves.map (fun t => t.data)).flatten) b =
      (leaves.map (fun t => mm_data (rows t) k n t.data b)).flatten := by
  induction leaves with
  | nil => simp [mm_data, rows_of]
  | cons t ts ih =>
    obtain ⟨⟨_, hd⟩, hts⟩ := matrix_leaves_cons h
    simp only [List.map_cons, List.sum_cons, List.flatten_cons]
    rw [mm_data_append k n (rows t) _ t.data _ b hd, ih hts]

/-! ### Views into a buffer that holds the leaves one after the other -/

theorem build_children_from_pieces :
    ∀ (ps : List (List Nat × List Int)) (before : List Int),
      (∀ p ∈ ps, p.2.length = numel_of p.1) →
      build_children_from (before ++ (ps.map Prod.snd).flatten)
          (ps.map (fun p => NestedNode.leaf p.1)) before.length =
        (ps.map (fun p => NestedNode.leaf ⟨p.1, p.2, false⟩),
          before.length + ((ps.map Prod.snd).flatten).length)
  | [], before, _ => by simp [build_children_from]
  | p :: ps, before, h => by
    have hp : p.2.length = numel_of p.1 := h p (by simp)
    have hps : ∀ q ∈ ps, q.2.length = numel_of q.1 := fun q hq => h q (by simp [hq])
    have ih := build_children_from_pieces ps (before ++ p.2) hps
    simp only [List.map_cons, List.flatten_cons, build_children_from, build_structure_from]
    have hbuf : before ++ (p.2 ++ (ps.map Prod.snd).flatten) =
        (before ++ p.2) ++ (ps.map Prod.snd).flatten := by simp
    have hoff : before.length + numel_of p.1 = (before ++ p.2).length := by simp [hp]
    rw [hoff, hbuf, ih]
    simp [← hp, Nat.add_assoc]

/-! ### The library calls of the packed path -/

theorem infer_size_rows (k len : Nat) :
    infer_size [-1, (k : Int)] len =
      if len = k * 1 ∨ (0 < k * 1 ∧ len % (k * 1) = 0) then
        if k * 1 = 0 then
          .error (.library "cannot reshape tensor of 0 elements: the unspecified dimension size -1 can be any value and is ambiguous")
        else .ok [len / (k * 1), k]
      else .error (.library "shape is invalid for input size") := by
  have hk : ¬ ((k : Int) < -1) := by omega
  have hk1 : ¬ ((k : Int) = -1) := by omega
  have hk2 : ¬ ((-1 : Int) = (k : Int)) := by omega
  simp [infer_size, hk, hk1, hk2, numel_of, List.count_cons]

theorem infer_size_flat (len : Nat) : infer_size [-1] len = .ok [len] := by
  simp [infer_size, numel_of, Nat.mod_one]

theorem reshape_flat (t : DenseArray) :
    t.reshape [-1] = .ok ⟨[t.data.length], t.data, false⟩ := by
  simp [DenseArray.reshape, infer_size_flat]

theorem reshape_rows_ok (t lhs : DenseArray) (k : Nat)
    (h : t.reshape [-1, (k : Int)] = .ok lhs) :
    0 < k ∧ lhs = ⟨[t.data.length / k, k], t.data, false⟩ := by
  unfold DenseArray.reshape at h
  cases hi : infer_size [-1, (k : Int)] t.data.length with
  | error e => simp [hi] at h
  | ok sizes =>
    simp only [hi, Except.ok.injEq] at h
    rw [infer_size_rows] at hi
    simp only [Nat.mul_one] at hi
    by_cases hk : k = 0
    · subst hk
      split at hi <;> simp at hi
    · split at hi
      · simp only [hk, if_false, Except.ok.injEq] at hi
        subst hi
        exact ⟨Nat.pos_of_ne_zero hk, h.symm⟩
      · cases hi

theorem reshape_rows_of_mul (t : DenseArray) (k m : Nat) (hk : 0 < k)
    (h : t.data.length = m * k) :
    t.reshape [-1, (k : Int)] = .ok ⟨[m, k], t.data, false⟩ := by
  unfold DenseArray.reshape
  rw [infer_size_rows]
  have hk0 : k ≠ 0 := by omega
  have hmod : m * k % k = 0 := Nat.mul_mod_left m k
  have hdiv : m * k / k = m := Nat.mul_div_cancel m hk
  simp [h, hk, hk0, hmod, hdiv]

theorem matmul_matrix (a b : DenseArray) (r k n : Nat) (ha : a.sizes = [r, k])
    (hb : b.sizes = [k, n]) :
    DenseArray.matmul a b = .ok ⟨[r, n], mm_data r k n a.data b.data, false⟩ := by
  simp [DenseArray.matmul, ha, hb]

theorem matmul_leaf (k n : Nat) (other leaf : DenseArray) (hl : leaf.sizes = [rows leaf, k])
    (ho : other.sizes = [k, n]) :
    DenseArray.matmul leaf other = .ok (leaf_product k n other leaf) :=
  matmul_matrix leaf other (rows leaf) k n hl ho

/-! ### `matmul` forward of a nested tensor of matrices with a dense matrix -/

theorem nested_size_leaves (self : NestedTensor) (leaves : List DenseArray)
    (h : self._structure = .node (leaves.map .leaf)) :
    self.nested_size = .node ((leaves.map (fun t => t.sizes)).map .leaf) := by
  unfold NestedTensor.nested_size
  rw [h, NestedNode.map_node_leaves _ (fun t => t.sizes) leaves (fun _ _ => rfl)]
  simp [List.map_map, Function.comp_def]

theorem fallback_leafwise (self : NestedTensor) (other : DenseArray) (leaves : List DenseArray)
    (k n : Nat) (hs : self._structure = .node (leaves.map .leaf))
    (hleaves : MatrixLeaves k leaves) (ho : other.sizes = [k, n]) :
    map_nested_tensor (fun tensor => DenseArray.matmul tensor other) self =
      .ok (wrap_tensor_node none
        (.node (leaves.map (fun t => .leaf (leaf_product k n other t))))) := by
  unfold map_nested_tensor
  rw [hs, NestedNode.map_node_leaves _ (leaf_product k n other) leaves]
  intro a ha
  obtain ⟨r, hsz, _⟩ := hleaves a ha
  exact matmul_leaf k n other a (by simp [rows, hsz]) ho

theorem new_nested_size_leaves (self : NestedTensor) (other : DenseArray)
    (leaves : List DenseArray) (k n : Nat) (hs : self._structure = .node (leaves.map .leaf))
    (hleaves : MatrixLeaves k leaves) (ho : other.sizes = [k, n]) :
    NestedNode.map
        (fun (self_size : List Nat) => do
          let d0 ← list_at self_size 0
          let d1 ← other.size 1
          pure [d0, d1])
        self.nested_size =
      .ok (.node (leaves.map (fun t => NestedNode.leaf [rows t, n]))) := by
  rw [nested_size_leaves self leaves hs,
    NestedNode.map_node_leaves _ (fun sz => [sz.headD 0, n])]
  · simp [List.map_map, Function.comp_def, rows]
  · intro sz hsz
    obtain ⟨t, ht, rfl⟩ := List.mem_map.mp hsz
    obtain ⟨r, hsz, _⟩ := hleaves t ht
    simp [hsz, list_at, DenseArray.size, ho, Except_ok_bind, bind, Except.bind, pure, Except.pure]

theorem build_structure_pieces (flat : DenseArray) (leaves : List DenseArray)
    (sz : DenseArray → List Nat) (dat : DenseArray → List Int)
    (hps : ∀ t ∈ leaves, (dat t).length = numel_of (sz t))
    (hdata : flat.data = (leaves.map dat).flatten) (tree : TensorNode)
    (h : build_structure flat (.node (leaves.map (fun t => NestedNode.leaf (sz t)))) = .ok tree) :
    tree = .node (leaves.map (fun t => NestedNode.leaf ⟨sz t, dat t, false⟩)) := by
  unfold build_structure at h
  split at h
  · simp only [Except.ok.injEq] at h
    have hp := build_children_from_pieces (leaves.map (fun t => (sz t, dat t))) [] (by
      intro p hp
      obtain ⟨t, ht, rfl⟩ := List.mem_map.mp hp
      exact hps t ht)
    simp only [List.nil_append, List.length_nil, List.map_map, Function.comp_def] at hp
    rw [← h, hdata]
    simp only [build_structure_from, hp]
  · cases h

theorem matmul_forward_dense_leafwise (ctx : AutogradContext) (self : NestedTensor)
    (other : DenseArray) (leaves : List DenseArray) (k n : Nat)
    (hself : self.HoldsLeaves leaves) (hleaves : MatrixLeaves k leaves)
    (ho : other.sizes = [k, n]) (res : Tensor)
    (hres : (NestedTensorFunction_matmul.forward ctx (.nested self) (.dense other)).2 = .ok res) :
    ∃ r, res = .nested r ∧
      r._structure = .node (leaves.map (fun t => .leaf (leaf_product k n other t))) := by
  have hfb := fallback_leafwise self other leaves k n hself.1 hleaves ho
  have hfallback : ∀ res : Tensor, (Except.ok (wrap_tensor_node none
        (.node (leaves.map (fun t => .leaf (leaf_product k n other t))))) : Except Error Tensor) =
        Except.ok res →
      ∃ r, res = .nested r ∧
        r._structure = .node (leaves.map (fun t => .leaf (leaf_product k n other t))) := by
    intro res h
    simp only [Except.ok.injEq] at h
    exact ⟨_, h.symm, rfl⟩
  unfold NestedTensorFunction_matmul.forward at hres
  simp only [get_nested_tensor_impl, Except_ok_bind, hfb] at hres
  split at hres
  · cases hg : packed_nt_t_guard self other with
    | error e => simp [hg, bind, Except.bind] at hres
    | ok g =>
      simp only [hg, Except_ok_bind] at hres
      cases g with
      | false => exact hfallback res (by simpa using hres)
      | true =>
        simp only [if_true, new_nested_size_leaves self other leaves k n hself.1 hleaves ho,
          Except_ok_bind] at hres
        cases hb : self._buffer with
        | none => simp [hb, optional_value, bind, Except.bind] at hres
        | some b =>
          have hsize0 : other.size 0 = .ok k := by simp [DenseArray.size, ho]
          simp only [hb, optional_value, Except_ok_bind, hsize0] at hres
          cases hr : b.reshape [-1, (k : Int)] with
          | error e => simp [hr, bind, Except.bind] at hres
          | ok lhs =>
            obtain ⟨hk, hlhs⟩ := reshape_rows_ok b lhs k hr
            have hbd := hself.2 b hb
            have hlen : b.data.length / k = (leaves.map rows).sum := by
              rw [hbd, flatten_data_length k leaves hleaves]
              exact Nat.mul_div_cancel _ hk
            rw [hlen] at hlhs
            have hmm := matmul_matrix lhs other ((leaves.map rows).sum) k n (by rw [hlhs]) ho
            simp only [hr, Except_ok_bind, hmm, reshape_flat] at hres
            cases hbs : build_structure
                ⟨[(mm_data ((leaves.map rows).sum) k n lhs.data other.data).length],
                  mm_data ((leaves.map rows).sum) k n lhs.data other.data, false⟩
                (.node (leaves.map (fun t => NestedNode.leaf [rows t, n]))) with
            | error e => simp [hbs, bind, Except.bind] at hres
            | ok tree =>
              simp only [hbs, Except_ok_bind, pure, Except.pure, Except.ok.injEq] at hres
              have htree := build_structure_pieces _ leaves (fun t => [rows t, n])
                (fun t => mm_data (rows t) k n t.data other.data) (by
                  intro t _
                  simp [mm_data_length, numel_of]) (by
                  simp only [hlhs, hbd]
                  exact mm_data_flatten k n other.data leaves hleaves) tree hbs
              refine ⟨_, hres.symm, ?_⟩
              simp [wrap_tensor_node, htree, leaf_product]
  · exact hfallback res hres

/-! ### Library calls of the backward passes on trees of nesting depth 1 -/

theorem at_mul_nested_leaves (r : NestedTensor) (ls : List DenseArray) (s : Int)
    (h : r._structure = .node (ls.map .leaf)) :
    at_mul (.nested r) s =
      .ok (wrap_tensor_node none (.node (ls.map (fun t => .leaf (t.mul s))))) := by
  simp only [at_mul, map_nested_tensor]
  rw [h, NestedNode.map_node_leaves _ (fun t => t.mul s) ls (fun _ _ => rfl)]

theorem nested_dim_leaves (self : NestedTensor) (leaves : List DenseArray)
    (h : self._structure = .node (leaves.map .leaf)) : self.nested_dim = 1 := by
  simp [NestedTensor.nested_dim, h, NestedNode.height_node_leaves]

theorem transpose_nested_leaves_ok (self : NestedTensor) (leaves : List DenseArray)
    (hs : self._structure = .node (leaves.map .leaf)) (st : Tensor)
    (h : (Tensor.nested self).transpose 1 2 = .ok st) :
    ∃ lts, st = wrap_tensor_node none (.node (lts.map .leaf)) ∧
      List.Forall₂ (fun l lt => l.transpose 0 1 = .ok lt) leaves lts := by
  simp only [Tensor.transpose, nested_dim_leaves self leaves hs] at h
  simp only [map_nested_tensor, hs] at h
  split at h
  · split at h
    · rename_i s hmap
      simp only [Except.ok.injEq] at h
      obtain ⟨cs, hcs, hrel⟩ := NestedNode.map_node_leaves_ok _ leaves s hmap
      exact ⟨cs, by rw [← h, hcs], hrel⟩
    · cases h
  · cases h

theorem at_matmul_unpacked_nested (lts gleaves : List DenseArray) (g : NestedTensor)
    (hg : g._structure = .node (gleaves.map .leaf)) (res : Tensor)
    (h : at_matmul (wrap_tensor_node none (.node (lts.map .leaf))) (.nested g) = .ok res) :
    ∃ ps, res = wrap_tensor_node none (.node (ps.map .leaf)) ∧
      List.Forall₂ (fun (lg : DenseArray × DenseArray) p => DenseArray.matmul lg.1 lg.2 = .ok p)
        (lts.zip gleaves) ps ∧
      lts.length = gleaves.length := by
  simp only [at_matmul, wrap_tensor_node, NestedTensor_matmul,
    NestedTensorFunction_matmul.forward, get_nested_tensor_impl, Except_ok_bind,
    packed_nt_nt_guard, Option.isSome_none, Bool.false_eq_true, false_and, if_false,
    pure, Except.pure] at h
  simp only [map_nested_tensor2, hg] at h
  split at h
  · rename_i s hmap
    simp only [Except.ok.injEq] at h
    obtain ⟨cs, hcs, hrel, hlen⟩ := NestedNode.map2_node_leaves_ok _ lts gleaves s hmap
    exact ⟨cs, by rw [← h, hcs], hrel, hlen⟩
  · cases h

theorem foldl_add_error (ps : List DenseArray) (e : Error) :
    ps.foldl (fun (acc : Except Error DenseArray) (t : DenseArray) =>
        match acc with
        | .ok g => g.add_ t
        | .error e => .error e) (.error e) = .error e := by
  induction ps with
  | nil => rfl
  | cons p ps ih => simpa using ih

theorem foldl_add_eq_accumulate (ps : List DenseArray) (init : DenseArray) :
    ps.foldl (fun (acc : Except Error DenseArray) (t : DenseArray) =>
        match acc with
        | .ok g => g.add_ t
        | .error e => .error e) (.ok init) = accumulate init ps := by
  induction ps generalizing init with
  | nil => rfl
  | cons p ps ih =>
    simp only [List.foldl_cons, accumulate]
    cases hadd : init.add_ p with
    | error e => simp [foldl_add_error]
    | ok g => simpa using ih g

theorem apply_add_leaves (init : DenseArray) (ps : List DenseArray) :
    apply_nested_tensor_add_ init (wrap_tensor_node none (.node (ps.map .leaf))) =
      accumulate init ps := by
  simp only [apply_nested_tensor_add_, wrap_tensor_node, get_nested_tensor_impl]
  rw [NestedNode.reduce_eq_foldl_flatten, NestedNode.flatten_node_leaves]
  exact foldl_add_eq_accumulate ps init

theorem getD_map_mul (l : List Int) (i : Nat) (s : Int) :
    (l.map (fun x => x * s)).getD i 0 = l.getD i 0 * s := by
  induction l generalizing i with
  | nil => simp
  | cons x xs ih =>
    cases i with
    | zero => simp
    | succ i => simpa using ih i

theorem expand_mul (t : DenseArray) (target : List Nat) (s : Int) :
    (t.mul s).expand target =
      match t.expand target with
      | .ok d => .ok (d.map (fun x => x * s))
      | .error e => .error e := by
  unfold DenseArray.expand
  simp only [DenseArray.mul]
  split
  · rfl
  · split
    · simp only [List.map_map, Function.comp_def, getD_map_mul]
    · rfl

theorem add_mul_ (init t : DenseArray) (s : Int) :
    (init.mul s).add_ (t.mul s) =
      match init.add_ t with
      | .ok g => .ok (g.mul s)
      | .error e => .error e := by
  unfold DenseArray.add_
  rw [show (init.mul s).sizes = init.sizes from rfl, expand_mul]
  cases t.expand init.sizes with
  | error e => rfl
  | ok d =>
    simp only [DenseArray.mul, Except.ok.injEq, DenseArray.mk.injEq, true_and, and_true]
    rw [List.zipWith_map, List.map_zipWith]
    congr 1
    funext x y
    exact (Int.add_mul x y s).symm

theorem add_requires_grad (init t g : DenseArray) (h : init.add_ t = .ok g) :
    g.requires_grad = init.requires_grad ∧ g.sizes = init.sizes := by
  unfold DenseArray.add_ at h
  split at h
  · cases h
  · cases h; exact ⟨rfl, rfl⟩

theorem accumulate_mul (s : Int) :
    ∀ (ps : List DenseArray) (init g_out : DenseArray),
      accumulate (init.mul s) (ps.map (fun t => t.mul s)) = .ok g_out →
      ∃ total, accumulate init ps = .ok total ∧ g_out = total.mul s
  | [], init, g_out, h => by
    simp only [List.map_nil, accumulate, Except.ok.injEq] at h
    exact ⟨init, rfl, h.symm⟩
  | p :: ps, init, g_out, h => by
    simp only [List.map_cons, accumulate, add_mul_] at h
    cases hadd : init.add_ p with
    | error e => simp [hadd] at h
    | ok g =>
      simp only [hadd] at h
      obtain ⟨total, htot, hg⟩ := accumulate_mul s ps g g_out h
      exact ⟨total, by simp [accumulate, hadd, htot], hg⟩

theorem zeros_like_mul (other : DenseArray) (s : Int) :
    (at_zeros_like other).mul s = at_zeros_like other := by
  simp [at_zeros_like, DenseArray.mul]

/-! ### Backward of `addmm` -/

theorem dense_transpose_matrix (other ot : DenseArray) (k n : Nat) (ho : other.sizes = [k, n])
    (h : other.transpose 0 1 = .ok ot) : ot.sizes = [n, k] := by
  unfold DenseArray.transpose at h
  split at h
  · cases h
    simp [ho, swap_at]
  · cases h

theorem forall₂_zip_compose {α β γ δ : Type} (R : α → β → Prop) (S : β × γ → δ → Prop) :
    ∀ (as : List α) (bs : List β) (gs : List γ) (ps : List δ),
      List.Forall₂ R as bs → List.Forall₂ S (bs.zip gs) ps →
      List.Forall₂ (fun (ag : α × γ) p => ∃ b, R ag.1 b ∧ S (b, ag.2) p) (as.zip gs) ps
  | [], bs, gs, ps, hr, hs => by
    cases hr
    simp only [List.zip_nil_left] at hs ⊢
    cases hs
    exact List.Forall₂.nil
  | a :: as, bs, [], ps, hr, hs => by
    simp only [List.zip_nil_right] at hs ⊢
    cases hs
    exact List.Forall₂.nil
  | a :: as, bs, g :: gs, ps, hr, hs => by
    cases hr with
    | cons hab hrest =>
      simp only [List.zip_cons_cons] at hs ⊢
      cases hs with
      | cons hp hps =>
        exact List.Forall₂.cons ⟨_, hab, hp⟩ (forall₂_zip_compose R S as _ gs _ hrest hps)

theorem mm_mat1_backward_leaves (grad : NestedTensor) (other : DenseArray) (alpha : Int)
    (gleaves : List DenseArray) (k n : Nat) (hgrad : grad.HoldsLeaves gleaves)
    (hgleaves : MatrixLeaves n gleaves) (ho : other.sizes = [k, n]) (res : Tensor)
    (h : mm_mat1_backward (.nested grad) (.dense other) alpha = .ok res) :
    ∃ other_t r, other.transpose 0 1 = .ok other_t ∧ res = .nested r ∧
      r._structure =
        .node (gleaves.map (fun t => .leaf ((leaf_product n k other_t t).mul alpha))) := by
  unfold mm_mat1_backward at h
  simp only [Tensor.transpose] at h
  cases hot : other.transpose 0 1 with
  | error e => simp [hot, bind, Except.bind] at h
  | ok other_t =>
    have hsz := dense_transpose_matrix other other_t k n ho hot
    simp only [hot, Except_ok_bind, at_matmul, NestedTensor_matmul] at h
    cases hmm : (NestedTensorFunction_matmul.forward AutogradContext.empty (.nested grad)
        (.dense other_t)).2 with
    | error e => simp [hmm, bind, Except.bind] at h
    | ok product =>
      obtain ⟨r, hr, hrs⟩ := matmul_forward_dense_leafwise AutogradContext.empty grad other_t
        gleaves n k hgrad hgleaves hsz product hmm
      simp only [hmm, Except_ok_bind, hr] at h
      rw [at_mul_nested_leaves r (gleaves.map (leaf_product n k other_t)) alpha
        (by simpa [List.map_map, Function.comp_def] using hrs)] at h
      simp only [Except.ok.injEq, List.map_map, Function.comp_def] at h
      exact ⟨other_t, _, rfl, h.symm, rfl⟩

/-- Backward of `addmm` on a gradient whose buffer, when it has one, holds the
elements of its leaves one after the other: for every successful call of
`NestedTensorFunction_addmm::backward` on the saved `(input, self, other, alpha, beta)`
with a nested `self` of nesting depth 1, a dense `other` of shape (k, n) and such a
gradient whose leaves are matrices of width `n`, the second gradient is the nested tensor whose i-th leaf is
`alpha * (grad_i @ transpose(other))`, and the third gradient is the dense array
`alpha * total`, where `total` is the sum of the products `transpose(leaf_i) @ grad_i`
accumulated into a zero array shaped like `other`. -/
theorem addmm_backward_gradients_of_held_leaves (ctx : AutogradContext) (input : Tensor)
    (self grad : NestedTensor) (other : DenseArray) (alpha beta : Int)
    (leaves gleaves : List DenseArray) (k n : Nat)
    (h0 : ctx.saved_data "0" = .tensor input)
    (h1 : ctx.saved_data "1" = .tensor (.nested self))
    (h2 : ctx.saved_data "2" = .tensor (.dense other))
    (h3 : ctx.saved_data "3" = .scalar alpha)
    (h4 : ctx.saved_data "4" = .scalar beta)
    (hself : self._structure = .node (leaves.map .leaf))
    (hgrad : grad.HoldsLeaves gleaves) (hgleaves : MatrixLeaves n gleaves)
    (ho : other.sizes = [k, n])
    (outs : List (Option Tensor))
    (hout : NestedTensorFunction_addmm.backward ctx [.nested grad] = .ok outs) :
    ∃ grad_input grad_self grad_other other_t self_leaves products total,
      outs = [some grad_input, some (.nested grad_self), some (.dense grad_other), none, none] ∧
      other.transpose 0 1 = .ok other_t ∧
      grad_self._structure = .node (self_leaves.map .leaf) ∧
      List.Forall₂
        (fun g out => ∃ p, DenseArray.matmul g other_t = .ok p ∧ out = p.mul alpha)
        gleaves self_leaves ∧
      leaves.length = gleaves.length ∧
      List.Forall₂
        (fun (lg : DenseArray × DenseArray) p =>
          ∃ lt, lg.1.transpose 0 1 = .ok lt ∧ DenseArray.matmul lt lg.2 = .ok p)
        (leaves.zip gleaves) products ∧
      accumulate (at_zeros_like other) products = .ok total ∧
      grad_other = total.mul alpha := by
  have hv : variable_list_at [Tensor.nested grad] 0 = .ok (.nested grad) := rfl
  have hl : decide ([Tensor.nested grad].length = 1) = true := rfl
  unfold NestedTensorFunction_addmm.backward at hout
  simp only [hv, hl, TORCH_CHECK_true, Except_ok_bind] at hout
  cases hrg : (Tensor.nested grad).requires_grad with
  | true => simp [hrg, TORCH_CHECK_false, bind, Except.bind] at hout
  | false =>
    simp only [hrg, Bool.not_false, TORCH_CHECK_true, Except_ok_bind, h0, h1, h2, h3, h4,
      IValue.toTensor, IValue.toScalar] at hout
    cases hst : (Tensor.nested self).transpose 1 2 with
    | error e => simp [hst, bind, Except.bind] at hout
    | ok st =>
      obtain ⟨lts, hlts, hrel_t⟩ := transpose_nested_leaves_ok self leaves hself st hst
      simp only [hst, Except_ok_bind] at hout
      cases hprod : at_matmul st (.nested grad) with
      | error e => simp [hprod, bind, Except.bind] at hout
      | ok product =>
        simp only [hprod, Except_ok_bind] at hout
        rw [hlts] at hprod
        obtain ⟨ps, hps, hrel_p, hlen⟩ :=
          at_matmul_unpacked_nested lts gleaves grad hgrad.1 product hprod
        have hmul : at_mul product alpha =
            .ok (wrap_tensor_node none (.node (ps.map (fun t => .leaf (t.mul alpha))))) := by
          rw [hps]
          exact at_mul_nested_leaves _ ps alpha rfl
        simp only [hmul, Except_ok_bind, zeros_like_add_] at hout
        have hacc : apply_nested_tensor_add_ (at_zeros_like other)
            (wrap_tensor_node none (.node (ps.map (fun t => .leaf (t.mul alpha))))) =
            accumulate ((at_zeros_like other).mul alpha) (ps.map (fun t => t.mul alpha)) := by
          have := apply_add_leaves (at_zeros_like other) (ps.map (fun t => t.mul alpha))
          simp only [List.map_map, Function.comp_def] at this
          rw [this, zeros_like_mul]
        rw [hacc] at hout
        cases hsum : accumulate ((at_zeros_like other).mul alpha)
            (ps.map (fun t => t.mul alpha)) with
        | error e => simp [hsum, bind, Except.bind] at hout
        | ok grad_other =>
          obtain ⟨total, htotal, hgo⟩ := accumulate_mul alpha ps _ grad_other hsum
          simp only [hsum, Except_ok_bind] at hout
          cases hgi : at_mul input beta with
          | error e => simp [hgi, bind, Except.bind] at hout
          | ok grad_input =>
            simp only [hgi, Except_ok_bind] at hout
            cases hgs : mm_mat1_backward (.nested grad) (.dense other) alpha with
            | error e => simp [hgs, bind, Except.bind] at hout
            | ok grad_self =>
              simp only [hgs, Except_ok_bind, pure, Except.pure, Except.ok.injEq] at hout
              obtain ⟨other_t, r, hot, hgs_eq, hrs⟩ := mm_mat1_backward_leaves grad other alpha
                gleaves k n hgrad hgleaves ho grad_self hgs
              have hsz := dense_transpose_matrix other other_t k n ho hot
              refine ⟨grad_input, r, grad_other, other_t,
                gleaves.map (fun t => (leaf_product n k other_t t).mul alpha), ps, total,
                ?_, hot, ?_, ?_, ?_, ?_, htotal, hgo⟩
              · rw [← hout, hgs_eq]
              · simp [hrs, List.map_map, Function.comp_def]
              · rw [List.forall₂_map_right_iff, List.forall₂_same]
                intro g hg
                obtain ⟨r, hgsz, _⟩ := hgleaves g hg
                exact ⟨_, matmul_leaf n k other_t g (by simp [rows, hgsz]) hsz, rfl⟩
              · rw [hrel_t.length_eq, hlen]
              · exact forall₂_zip_compose _
                  (fun (lg : DenseArray × DenseArray) p => DenseArray.matmul lg.1 lg.2 = .ok p)
                  leaves lts gleaves ps hrel_t hrel_p

theorem packed_of_holds_leaves (leaves : List DenseArray) :
    (packed_of leaves).HoldsLeaves leaves :=
  ⟨rfl, fun b hb => by cases hb; rfl⟩

theorem unpacked_of_holds_leaves (leaves : List DenseArray) :
    (unpacked_of leaves).HoldsLeaves leaves :=
  ⟨rfl, fun b hb => by cases hb⟩

theorem matrix_leaves_pair (k : Nat) (a b : DenseArray)
    (ha : ∃ r, a.sizes = [r, k] ∧ a.data.length = r * k)
    (hb : ∃ r, b.sizes = [r, k] ∧ b.data.length = r * k) : MatrixLeaves k [a, b] := by
  intro t ht
  simp only [List.mem_cons, List.mem_singleton, List.not_mem_nil, or_false] at ht
  rcases ht with rfl | rfl
  · exact ha
  · exact hb

/-- Backward of `addmm` at a concrete call: `self` has the leaves `[[1, 2], [3, 4]]` and `[[5, 6]]`,
`other = [[1, 1, 0], [0, 1, 2]]`, `alpha = 2`, and the gradient is made of ones. -/
theorem addmm_backward_gradients_at_ones :
    (MatrixLeaves 3 [full [2, 3] 1, full [1, 3] 1] ∧
      (packed_of [full [2, 3] 1, full [1, 3] 1]).HoldsLeaves [full [2, 3] 1, full [1, 3] 1] ∧
      (dense_of [2, 3] [1, 1, 0, 0, 1, 2]).sizes = [2, 3]) ∧
    ∃ outs,
      NestedTensorFunction_addmm.backward
        (addmm_saved (.dense (dense_of [3] [10, 20, 30]))
          (.nested (packed_of [dense_of [2, 2] [1, 2, 3, 4], dense_of [1, 2] [5, 6]]))
          (.dense (dense_of [2, 3] [1, 1, 0, 0, 1, 2])) 2 3)
        [.nested (packed_of [full [2, 3] 1, full [1, 3] 1])] = .ok outs ∧
      ∃ grad_input grad_self grad_other other_t self_leaves products total,
        outs = [some grad_input, some (.nested grad_self), some (.dense grad_other), none, none] ∧
        (dense_of [2, 3] [1, 1, 0, 0, 1, 2]).transpose 0 1 = .ok other_t ∧
        grad_self._structure = .node (self_leaves.map .leaf) ∧
        List.Forall₂
          (fun g out => ∃ p, DenseArray.matmul g other_t = .ok p ∧ out = p.mul 2)
          [full [2, 3] 1, full [1, 3] 1] self_leaves ∧
        [dense_of [2, 2] [1, 2, 3, 4], dense_of [1, 2] [5, 6]].length =
          [full [2, 3] 1, full [1, 3] 1].length ∧
        List.Forall₂
          (fun (lg : DenseArray × DenseArray) p =>
            ∃ lt, lg.1.transpose 0 1 = .ok lt ∧ DenseArray.matmul lt lg.2 = .ok p)
          ([dense_of [2, 2] [1, 2, 3, 4], dense_of [1, 2] [5, 6]].zip
            [full [2, 3] 1, full [1, 3] 1]) products ∧
        accumulate (at_zeros_like (dense_of [2, 3] [1, 1, 0, 0, 1, 2])) products = .ok total ∧
        grad_other = total.mul 2 :=
  ⟨⟨matrix_leaves_pair 3 _ _ ⟨2, rfl, rfl⟩ ⟨1, rfl, rfl⟩, packed_of_holds_leaves _, rfl⟩,
    _, rfl,
    addmm_backward_gradients_of_held_leaves
      (addmm_saved (.dense (dense_of [3] [10, 20, 30]))
        (.nested (packed_of [dense_of [2, 2] [1, 2, 3, 4], dense_of [1, 2] [5, 6]]))
        (.dense (dense_of [2, 3] [1, 1, 0, 0, 1, 2])) 2 3)
      (.dense (dense_of [3] [10, 20, 30]))
      (packed_of [dense_of [2, 2] [1, 2, 3, 4], dense_of [1, 2] [5, 6]])
      (packed_of [full [2, 3] 1, full [1, 3] 1])
      (dense_of [2, 3] [1, 1, 0, 0, 1, 2]) 2 3
      [dense_of [2, 2] [1, 2, 3, 4], dense_of [1, 2] [5, 6]]
      [full [2, 3] 1, full [1, 3] 1] 2 3
      rfl rfl rfl rfl rfl rfl (packed_of_holds_leaves _)
      (matrix_leaves_pair 3 _ _ ⟨2, rfl, rfl⟩ ⟨1, rfl, rfl⟩) rfl _ rfl⟩

/-- C9 fails at a packed gradient whose leaf is a strided view of its buffer.
`self` has the one leaf `[[5, 6], [7, 8]]`, `other = [[1, 1], [0, 1]]`, `alpha = 1`,
and the gradient has the buffer `[1, 2, 3, 4]` and the leaf `grad_0 = [[1, 3], [2, 4]]`.
The call succeeds. Its second gradient has the leaf `[[3, 2], [7, 4]]`, the rows of
the buffer times `transpose(other)`, where `alpha * (grad_0 @ transpose(other))` is
`[[4, 3], [6, 4]]`; the same call on the same leaf without a buffer returns
`[[4, 3], [6, 4]]`. The third gradient is the same in both calls. -/
theorem C9_addmm_backward_strided_gradient :
    NestedTensorFunction_addmm.backward
        (addmm_saved (.dense (dense_of [2] [10, 20]))
          (.nested (packed_of [dense_of [2, 2] [5, 6, 7, 8]]))
          (.dense (dense_of [2, 2] [1, 1, 0, 1])) 1 1)
        [.nested packed_transposed_leaf] =
      .ok [some (.dense ⟨[2], [10, 20], false⟩),
        some (wrap_tensor_node none (.node [.leaf ⟨[2, 2], [3, 2, 7, 4], false⟩])),
        some (.dense ⟨[2, 2], [19, 43, 22, 50], false⟩), none, none] ∧
    NestedNode.flatten packed_transposed_leaf._structure = [⟨[2, 2], [1, 3, 2, 4], false⟩] ∧
    (dense_of [2, 2] [1, 1, 0, 1]).transpose 0 1 = .ok ⟨[2, 2], [1, 0, 1, 1], false⟩ ∧
    DenseArray.matmul ⟨[2, 2], [1, 3, 2, 4], false⟩ ⟨[2, 2], [1, 0, 1, 1], false⟩ =
      .ok ⟨[2, 2], [4, 3, 6, 4], false⟩ ∧
    DenseArray.mul ⟨[2, 2], [4, 3, 6, 4], false⟩ 1 = ⟨[2, 2], [4, 3, 6, 4], false⟩ ∧
    NestedTensorFunction_addmm.backward
        (addmm_saved (.dense (dense_of [2] [10, 20]))
          (.nested (packed_of [dense_of [2, 2] [5, 6, 7, 8]]))
          (.dense (dense_of [2, 2] [1, 1, 0, 1])) 1 1)
        [.nested (unpacked_of [⟨[2, 2], [1, 3, 2, 4], false⟩])] =
      .ok [some (.dense ⟨[2], [10, 20], false⟩),
        some (wrap_tensor_node none (.node [.leaf ⟨[2, 2], [4, 3, 6, 4], false⟩])),
        some (.dense ⟨[2, 2], [19, 43, 22, 50], false⟩), none, none] :=
  ⟨rfl, rfl, rfl, rfl, rfl, rfl⟩

/-! ### Success of the `matmul` forward on matrices of positive width -/

theorem construct_size_children_matrix (k : Nat) :
    ∀ (leaves : List DenseArray), MatrixLeaves k leaves → leaves ≠ [] →
      ∃ x, construct_size_children ((leaves.map (fun t => t.sizes)).map NestedNode.leaf) =
        [x, some k]
  | [], _, hne => absurd rfl hne
  | [t], h, _ => by
    obtain ⟨r, hs, _⟩ := h t (by simp)
    exact ⟨some r, by simp [construct_size_children, construct_size, hs]⟩
  | t :: t1 :: ts, h, _ => by
    obtain ⟨r, hs, _⟩ := h t (by simp)
    obtain ⟨x, hx⟩ := construct_size_children_matrix k (t1 :: ts)
      (fun a ha => h a (by simp [List.mem_cons] at ha ⊢; exact Or.inr ha)) (by simp)
    simp only [List.map_cons] at hx
    refine ⟨if some r = x then some r else none, ?_⟩
    simp only [List.map_cons, construct_size_children, construct_size, hs, hx]
    simp [merge_sizes]

theorem size_matrix_leaves (self : NestedTensor) (leaves : List DenseArray) (k : Nat)
    (hs : self._structure = .node (leaves.map .leaf)) (hleaves : MatrixLeaves k leaves)
    (hne : leaves ≠ []) : ∃ x, self.size = [some leaves.length, x, some k] := by
  obtain ⟨x, hx⟩ := construct_size_children_matrix k leaves hleaves hne
  refine ⟨x, ?_⟩
  unfold NestedTensor.size
  rw [nested_size_leaves self leaves hs]
  simp only [construct_size, hx, List.length_map]

theorem packed_nt_t_guard_matrix (self : NestedTensor) (other : DenseArray)
    (leaves : List DenseArray) (k n : Nat) (hs : self._structure = .node (leaves.map .leaf))
    (hleaves : MatrixLeaves k leaves) (hne : leaves ≠ []) (ho : other.sizes = [k, n]) :
    packed_nt_t_guard self other = .ok (decide (self.dim = 3 ∧ k = n)) := by
  obtain ⟨x, hx⟩ := size_matrix_leaves self leaves k hs hleaves hne
  unfold packed_nt_t_guard
  by_cases hd : self.dim = 3
  · have hod : other.dim = 2 := by simp [DenseArray.dim, ho]
    simp [hd, hod, hx, vector_at, DenseArray.size, ho, bind, Except.bind, pure, Except.pure]
  · simp [hd, pure, Except.pure]

theorem foldl_numel_rows (n : Nat) (leaves : List DenseArray) (acc : Nat) :
    (leaves.map (fun t => [rows t, n])).foldl (fun a x => a + numel_of x) acc =
      acc + (leaves.map rows).sum * n := by
  induction leaves generalizing acc with
  | nil => simp
  | cons t ts ih =>
    simp only [List.map_cons, List.foldl_cons, List.sum_cons, ih]
    simp [numel_of, Nat.add_mul, Nat.add_assoc]

/-- For matrices of width `k` with `k` and `n` not both zero, the forward returns a
result, and that result holds the leaf-wise products on either path. -/
theorem matmul_forward_dense_matches_leafwise (ctx : AutogradContext) (self : NestedTensor)
    (other : DenseArray) (leaves : List DenseArray) (k n : Nat)
    (hself : self.HoldsLeaves leaves) (hleaves : MatrixLeaves k leaves)
    (hne : leaves ≠ []) (ho : other.sizes = [k, n]) (hkn : ¬ (k = 0 ∧ n = 0)) :
    ∃ r, (NestedTensorFunction_matmul.forward ctx (.nested self) (.dense other)).2 =
        .ok (.nested r) ∧
      r._structure = .node (leaves.map (fun t => .leaf (leaf_product k n other t))) ∧
      ∀ t ∈ leaves, DenseArray.matmul t other = .ok (leaf_product k n other t) ∧
        (leaf_product k n other t).sizes = [rows t, n] ∧ t.sizes = [rows t, k] := by
  have hleaf : ∀ t ∈ leaves, DenseArray.matmul t other = .ok (leaf_product k n other t) ∧
      (leaf_product k n other t).sizes = [rows t, n] ∧ t.sizes = [rows t, k] := by
    intro t ht
    obtain ⟨r, hsz, _⟩ := hleaves t ht
    have hrows : t.sizes = [rows t, k] := by simp [rows, hsz]
    exact ⟨matmul_leaf k n other t hrows ho, rfl, hrows⟩
  suffices hok : ∃ res, (NestedTensorFunction_matmul.forward ctx (.nested self)
      (.dense other)).2 = .ok res by
    obtain ⟨res, hres⟩ := hok
    obtain ⟨r, hr, hrs⟩ := matmul_forward_dense_leafwise ctx self other leaves k n hself
      hleaves ho res hres
    exact ⟨r, by rw [hres, hr], hrs, hleaf⟩
  have hfb := fallback_leafwise self other leaves k n hself.1 hleaves ho
  unfold NestedTensorFunction_matmul.forward
  simp only [get_nested_tensor_impl, Except_ok_bind, hfb,
    packed_nt_t_guard_matrix self other leaves k n hself.1 hleaves hne ho]
  split
  · split
    · rename_i hbuf hguard
      simp only [decide_eq_true_eq] at hguard
      obtain ⟨_, hkeq⟩ := hguard
      have hk : 0 < k := by omega
      cases hb : self._buffer with
      | none => simp [hb] at hbuf
      | some b =>
        have hsize0 : other.size 0 = .ok k := by simp [DenseArray.size, ho]
        have hbd := hself.2 b hb
        have hlen : b.data.length = (leaves.map rows).sum * k := by
          rw [hbd, flatten_data_length k leaves hleaves]
        have hmm := matmul_matrix ⟨[(leaves.map rows).sum, k], b.data, false⟩ other
          ((leaves.map rows).sum) k n rfl ho
        have hbuild : build_structure
            ⟨[(mm_data ((leaves.map rows).sum) k n b.data other.data).length],
              mm_data ((leaves.map rows).sum) k n b.data other.data, false⟩
            (.node (leaves.map (fun t => NestedNode.leaf [rows t, n]))) =
            .ok (build_structure_from (mm_data ((leaves.map rows).sum) k n b.data other.data)
              (.node (leaves.map (fun t => NestedNode.leaf [rows t, n]))) 0).1 := by
          unfold build_structure
          have hfl : NestedNode.flatten
              (NestedNode.node (leaves.map (fun t => NestedNode.leaf [rows t, n]))) =
              leaves.map (fun t => [rows t, n]) := by
            have := NestedNode.flatten_node_leaves (leaves.map (fun t => [rows t, n]))
            simpa [List.map_map, Function.comp_def] using this
          rw [NestedNode.reduce_eq_foldl_flatten, hfl, foldl_numel_rows]
          simp [mm_data_length]
        simp only [new_nested_size_leaves self other leaves k n hself.1 hleaves ho,
          Except_ok_bind, optional_value, hsize0,
          reshape_rows_of_mul b k _ hk hlen, hmm, reshape_flat, hbuild]
        exact ⟨_, rfl⟩
    · exact ⟨_, rfl⟩
  · exact ⟨_, rfl⟩

/-- C6 at concrete calls: two gradients are refused by both backward passes, and so
is a single gradient that requires grad. -/
theorem C6_backward_gradient_checks_witness :
    ([Tensor.dense (full [2, 3] 1), Tensor.dense (full [2, 3] 1)].length ≠ 1 ∧
      NestedTensorFunction_matmul.backward AutogradContext.empty
          [Tensor.dense (full [2, 3] 1), Tensor.dense (full [2, 3] 1)] =
        .error (.torch_check "Expected grad_output of size 1 for addmm.") ∧
      NestedTensorFunction_addmm.backward AutogradContext.empty
          [Tensor.dense (full [2, 3] 1), Tensor.dense (full [2, 3] 1)] =
        .error (.torch_check "Expected grad_output of size 1 for addmm.")) ∧
    (Tensor.requires_grad (.dense ⟨[1], [1], true⟩) = true ∧
      NestedTensorFunction_matmul.backward AutogradContext.empty [.dense ⟨[1], [1], true⟩] =
        .error (.torch_check "addmm does not support double backward.") ∧
      NestedTensorFunction_addmm.backward AutogradContext.empty [.dense ⟨[1], [1], true⟩] =
        .error (.torch_check "addmm does not support double backward.")) :=
  ⟨⟨by decide,
      (C6_backward_gradient_checks AutogradContext.empty
        [Tensor.dense (full [2, 3] 1), Tensor.dense (full [2, 3] 1)]).1 (by decide)⟩,
    ⟨rfl,
      (C6_backward_gradient_checks AutogradContext.empty [.dense ⟨[1], [1], true⟩]).2.1
        (.dense ⟨[1], [1], true⟩) rfl rfl⟩⟩

/-! ### Selection of the packed paths -/

/-- C14 at concrete inputs. First, the example of the specification: `self` is
packed with leaves of shape (2, 4) and (3, 4), `other` has shape (4, 5), so the last
size of `self` is concrete and equals `other.size(0) = 4`; the guard nevertheless
compares it with `other.size(1) = 5`, is false, and both `matmul` and `addmm` return
the leaf-wise result, which has no buffer. Second, `self` is packed with one leaf of
shape (4, 5) and `other` has shape (4, 5): the last size 5 differs from
`other.size(0) = 4`, yet the guard holds and the packed path is entered, where the
reshaped product does not fit the leaf shapes. -/
theorem C14_packed_guard_compares_columns :
    ((packed_of [full [2, 4] 1, full [3, 4] 1]).size = [some 2, none, some 4] ∧
      (packed_of [full [2, 4] 1, full [3, 4] 1]).dim = 3 ∧
      (full [4, 5] 1).size 0 = .ok 4 ∧
      (full [4, 5] 1).size 1 = .ok 5 ∧
      packed_nt_t_guard (packed_of [full [2, 4] 1, full [3, 4] 1]) (full [4, 5] 1) = .ok false ∧
      (∃ r, (NestedTensorFunction_matmul.forward AutogradContext.empty
          (.nested (packed_of [full [2, 4] 1, full [3, 4] 1])) (.dense (full [4, 5] 1))).2 =
          .ok (.nested r) ∧ r._buffer = none ∧
        r._structure.flatten = [full [2, 5] 4, full [3, 5] 4]) ∧
      (∃ r, (NestedTensorFunction_addmm.forward AutogradContext.empty (.dense (full [5] 0))
          (.nested (packed_of [full [2, 4] 1, full [3, 4] 1])) (.dense (full [4, 5] 1)) 1 1).2 =
          .ok (.nested r) ∧ r._buffer = none)) ∧
    ((packed_of [full [4, 5] 1]).size = [some 1, some 4, some 5] ∧
      packed_nt_t_guard (packed_of [full [4, 5] 1]) (full [4, 5] 1) = .ok true ∧
      (NestedTensorFunction_matmul.forward AutogradContext.empty
          (.nested (packed_of [full [4, 5] 1])) (.dense (full [4, 5] 1))).2 =
        .error (.library
          "split_with_sizes expects split_sizes to sum exactly to the buffer size")) :=
  ⟨⟨rfl, rfl, rfl, rfl, rfl, ⟨_, rfl, rfl, rfl⟩, ⟨_, rfl, rfl⟩⟩, rfl, rfl, rfl⟩

/-- C18 at nesting depth 2: both operands are packed, of rank 4, with sizes
[2, 3, 3, 4] and [2, 3, 4, 5], so the guard of the packed NT x NT path holds; the
leaf shapes have two entries, the access `other_size[2]` is out of bounds, and the
per-leaf shape computation fails, although the dense product of a leaf pair has the
shape (3, 5). -/
theorem C18_packed_shape_index_out_of_range :
    packed_nt_nt_guard (packed_slots (full [3, 4] 1) 2 3) (packed_slots (full [4, 5] 1) 2 3) =
      .ok true ∧
    (packed_slots (full [3, 4] 1) 2 3).nested_dim = 2 ∧
    (packed_slots (full [3, 4] 1) 2 3).dim = 4 ∧
    (packed_slots (full [4, 5] 1) 2 3).dim = 4 ∧
    (packed_slots (full [4, 5] 1) 2 3).nested_size.flatten = List.replicate 6 [4, 5] ∧
    list_at [3, 4] 0 = .ok 3 ∧ list_at [3, 4] 1 = .ok 4 ∧
    list_at [4, 5] 2 = .error .out_of_range ∧
    NestedNode.map2
        (fun (self_size other_size : List Nat) => do
          let d0 ← list_at self_size 0
          let d1 ← list_at self_size 1
          let d2 ← list_at other_size 2
          pure [d0, d1, d2])
        (packed_slots (full [3, 4] 1) 2 3).nested_size
        (packed_slots (full [4, 5] 1) 2 3).nested_size = .error .out_of_range ∧
    (DenseArray.matmul (full [3, 4] 1) (full [4, 5] 1)).map (fun p => p.sizes) = .ok [3, 5] :=
  ⟨rfl, rfl, rfl, rfl, rfl, rfl, rfl, rfl, rfl, rfl⟩

/-! ### Contiguity -/

theorem foldl_and_layout (layout : DenseArray → Bool) (l : List DenseArray) (acc : Bool) :
    l.foldl (fun a x => a && layout x) acc = (acc && l.all layout) := by
  induction l generalizing acc with
  | nil => simp
  | cons x xs ih => simp [ih, Bool.and_assoc]

theorem is_contiguous_eq (layout : DenseArray → Bool) (self : NestedTensor) (b : DenseArray)
    (hb : self._buffer = some b) :
    self.is_contiguous layout =
      .ok (layout b && (NestedNode.flatten self._structure).all layout) := by
  unfold NestedTensor.is_contiguous
  rw [hb, NestedNode.reduce_eq_foldl_flatten, foldl_and_layout]
  simp [optional_value]

theorem Except_bind_eq_ok {α β : Type} {x : Except Error α} {f : α → Except Error β} {y : β}
    (h : (x >>= f) = .ok y) : ∃ a, x = .ok a ∧ f a = .ok y := by
  cases x with
  | error e => cases h
  | ok a => exact ⟨a, rfl, h⟩

namespace NestedNode

variable {α β γ δ ε : Type}

mutual
theorem flatten_image (f : α → β) : ∀ t : NestedNode α, flatten (image f t) = (flatten t).map f
  | .leaf a => by simp [image, flatten]
  | .node cs => by
    simp only [image, flatten]
    exact flatten_image_children f cs
theorem flatten_image_children (f : α → β) :
    ∀ cs : List (NestedNode α), flatten_children (image_children f cs) = (flatten_children cs).map f
  | [] => by simp [image_children, flatten_children]
  | c :: cs => by
    simp only [image_children, flatten_children, List.map_append]
    rw [flatten_image f c, flatten_image_children f cs]
end

mutual
theorem image_image (f : α → β) (g : β → γ) :
    ∀ t : NestedNode α, image g (image f t) = image (fun a => g (f a)) t
  | .leaf a => by simp [image]
  | .node cs => by
    simp only [image, node.injEq]
    exact image_children_image f g cs
theorem image_children_image (f : α → β) (g : β → γ) :
    ∀ cs : List (NestedNode α),
      image_children g (image_children f cs) = image_children (fun a => g (f a)) cs
  | [] => by simp [image_children]
  | c :: cs => by
    simp only [image_children, List.cons.injEq]
    exact ⟨image_image f g c, image_children_image f g cs⟩
end

theorem shape_image (f : α → β) (t : NestedNode α) : shape (image f t) = shape t := by
  simp [shape, image_image]

mutual
theorem map_ok_image (g : α → β) :
    ∀ t : NestedNode α, map (fun a => Except.ok (g a)) t = .ok (image g t)
  | .leaf a => by simp [map, image]
  | .node cs => by simp [map, image, map_children_ok_image g cs]
theorem map_children_ok_image (g : α → β) :
    ∀ cs : List (NestedNode α),
      map_children (fun a => Except.ok (g a)) cs = .ok (image_children g cs)
  | [] => by simp [map_children, image_children]
  | c :: cs => by
    simp [map_children, image_children, map_ok_image g c, map_children_ok_image g cs]
end

mutual
theorem shape_map (f : α → Except Error β) :
    ∀ (t : NestedNode α) (out : NestedNode β), map f t = .ok out → shape out = shape t
  | .leaf a, out, h => by
    simp only [map] at h
    split at h
    · cases h; simp [shape, image]
    · cases h
  | .node cs, out, h => by
    simp only [map] at h
    split at h
    · rename_i cs1 hcs
      cases h
      simp only [shape, image, node.injEq]
      exact shape_map_children f cs cs1 hcs
    · cases h
theorem shape_map_children (f : α → Except Error β) :
    ∀ (cs : List (NestedNode α)) (out : List (NestedNode β)), map_children f cs = .ok out →
      image_children (fun _ => ()) out = image_children (fun _ => ()) cs
  | [], out, h => by
    simp only [map_children] at h
    cases h; rfl
  | c :: cs, out, h => by
    simp only [map_children] at h
    split at h
    · cases h
    · rename_i c1 hc
      split at h
      · rename_i cs1 hcs
        cases h
        simp only [image_children, List.cons.injEq]
        exact ⟨shape_map f c c1 hc, shape_map_children f cs cs1 hcs⟩
      · cases h
end

mutual
theorem shape_map2 (f : α → β → Except Error γ) :
    ∀ (s : NestedNode α) (t : NestedNode β) (out : NestedNode γ),
      map2 f s t = .ok out → shape out = shape s
  | .leaf a, .leaf b, out, h => by
    simp only [map2] at h
    split at h
    · cases h; simp [shape, image]
    · cases h
  | .node as, .node bs, out, h => by
    simp only [map2] at h
    split at h
    · split at h
      · rename_i cs1 hcs
        cases h
        simp only [shape, image, node.injEq]
        exact shape_map2_children f as bs cs1 hcs
      · cases h
    · cases h
  | .leaf _, .node _, out, h => by simp [map2] at h
  | .node _, .leaf _, out, h => by simp [map2] at h
theorem shape_map2_children (f : α → β → Except Error γ) :
    ∀ (as : List (NestedNode α)) (bs : List (NestedNode β)) (out : List (NestedNode γ)),
      map2_children f as bs = .ok out →
      image_children (fun _ => ()) out = image_children (fun _ => ()) as
  | [], [], out, h => by
    simp only [map2_children] at h
    cases h; rfl
  | a :: as, b :: bs, out, h => by
    simp only [map2_children] at h
    split at h
    · cases h
    · rename_i c1 hc
      split at h
      · rename_i cs1 hcs
        cases h
        simp only [image_children, List.cons.injEq]
        exact ⟨shape_map2 f a b c1 hc, shape_map2_children f as bs cs1 hcs⟩
      · cases h
  | [], _ :: _, out, h => by simp [map2_children] at h
  | _ :: _, [], out, h => by simp [map2_children] at h
end

mutual
theorem shape_map3 (f : α → β → γ → Except Error δ) :
    ∀ (s : NestedNode α) (t : NestedNode β) (u : NestedNode γ) (out : NestedNode δ),
      map3 f s t u = .ok out → shape out = shape s
  | .leaf a, .leaf b, .leaf c, out, h => by
    simp only [map3] at h
    split at h
    · cases h; simp [shape, image]
    · cases h
  | .node as, .node bs, .node cs, out, h => by
    simp only [map3] at h
    split at h
    · split at h
      · rename_i ds hds
        cases h
        simp only [shape, image, node.injEq]
        exact shape_map3_children f as bs cs ds hds
      · cases h
    · cases h
  | .leaf _, .leaf _, .node _, out, h => by simp [map3] at h
  | .leaf _, .node _, _, out, h => by simp [map3] at h
  | .node _, .leaf _, _, out, h => by simp [map3] at h
  | .node _, .node _, .leaf _, out, h => by simp [map3] at h
theorem shape_map3_children (f : α → β → γ → Except Error δ) :
    ∀ (as : List (NestedNode α)) (bs : List (NestedNode β)) (cs : List (NestedNode γ))
      (out : List (NestedNode δ)), map3_children f as bs cs = .ok out →
      image_children (fun _ => ()) out = image_children (fun _ => ()) as
  | [], [], [], out, h => by
    simp only [map3_children] at h
    cases h; rfl
  | a :: as, b :: bs, c :: cs, out, h => by
    simp only [map3_children] at h
    split at h
    · cases h
    · rename_i d1 hd
      split at h
      · rename_i ds hds
        cases h
        simp only [image_children, List.cons.injEq]
        exact ⟨shape_map3 f a b c d1 hd, shape_map3_children f as bs cs ds hds⟩
      · cases h
  | [], [], _ :: _, out, h => by simp [map3_children] at h
  | [], _ :: _, _, out, h => by simp [map3_children] at h
  | _ :: _, [], _, out, h => by simp [map3_children] at h
  | _ :: _, _ :: _, [], out, h => by simp [map3_children] at h
end

end NestedNode

mutual
theorem shape_build_structure_from (buffer : List Int) :
    ∀ (s : SizeNode) (offset : Nat),
      NestedNode.shape (build_structure_from buffer s offset).1 = NestedNode.shape s
  | .leaf sizes, offset => by simp [build_structure_from, NestedNode.shape, NestedNode.image]
  | .node cs, offset => by
    simp only [build_structure_from, NestedNode.shape, NestedNode.image, NestedNode.node.injEq]
    exact shape_build_children_from buffer cs offset
theorem shape_build_children_from (buffer : List Int) :
    ∀ (cs : List SizeNode) (offset : Nat),
      NestedNode.image_children (fun _ => ()) (build_children_from buffer cs offset).1 =
        NestedNode.image_children (fun _ => ()) cs
  | [], offset => by simp [build_children_from, NestedNode.image_children]
  | c :: cs, offset => by
    simp only [build_children_from, NestedNode.image_children, List.cons.injEq]
    exact ⟨shape_build_structure_from buffer c offset,
      shape_build_children_from buffer cs _⟩
end

theorem nested_size_eq_image (self : NestedTensor) :
    self.nested_size = NestedNode.image (fun t => t.sizes) self._structure := by
  unfold NestedTensor.nested_size
  rw [NestedNode.map_ok_image]

theorem shape_build_structure (buffer : DenseArray) (s : SizeNode) (tree : TensorNode)
    (h : build_structure buffer s = .ok tree) : NestedNode.shape tree = NestedNode.shape s := by
  unfold build_structure at h
  split at h
  · cases h
    exact shape_build_structure_from _ _ _
  · cases h

namespace NestedNode

variable {α β : Type}

mutual
theorem height_image (f : α → β) : ∀ t : NestedNode α, height (image f t) = height t
  | .leaf a => by simp [image, height]
  | .node cs => by simp [image, height, height_image_children f cs]
theorem height_image_children (f : α → β) :
    ∀ cs : List (NestedNode α), height_children (image_children f cs) = height_children cs
  | [] => by simp [image_children, height_children]
  | c :: cs => by
    simp [image_children, height_children, height_image f c, height_image_children f cs]
end

theorem length_image_children (f : α → β) :
    ∀ cs : List (NestedNode α), (image_children f cs).length = cs.length
  | [] => rfl
  | c :: cs => by simp [image_children, length_image_children f cs]

theorem degree_image (f : α → β) : ∀ t : NestedNode α, degree (image f t) = degree t
  | .leaf a => rfl
  | .node cs => by simp [image, degree, length_image_children]

theorem height_eq_of_shape_eq {s : NestedNode α} {t : NestedNode β} (h : shape s = shape t) :
    height s = height t := by
  have hs := height_image (fun _ => ()) s
  have ht := height_image (fun _ => ()) t
  unfold shape at h
  rw [← hs, ← ht, h]

theorem degree_eq_of_shape_eq {s : NestedNode α} {t : NestedNode β} (h : shape s = shape t) :
    degree s = degree t := by
  have hs := degree_image (fun _ => ()) s
  have ht := degree_image (fun _ => ()) t
  unfold shape at h
  rw [← hs, ← ht, h]

end NestedNode

theorem shape_map_nested_tensor (f : DenseArray → Except Error DenseArray) (self : NestedTensor)
    (res : Tensor) (h : map_nested_tensor f self = .ok res) :
    ∃ r, res = .nested r ∧ NestedNode.shape r._structure = NestedNode.shape self._structure := by
  unfold map_nested_tensor at h
  split at h
  · rename_i s hs
    cases h
    exact ⟨_, rfl, NestedNode.shape_map f _ s hs⟩
  · cases h

theorem shape_map_nested_tensor2 (f : DenseArray → DenseArray → Except Error DenseArray)
    (self other : NestedTensor) (res : Tensor) (h : map_nested_tensor2 f self other = .ok res) :
    ∃ r, res = .nested r ∧ NestedNode.shape r._structure = NestedNode.shape self._structure := by
  unfold map_nested_tensor2 at h
  split at h
  · rename_i s hs
    cases h
    exact ⟨_, rfl, NestedNode.shape_map2 f _ _ s hs⟩
  · cases h

theorem shape_apply_matmul_out (result : TensorNode) (impl_self impl_other : NestedTensor)
    (buffer : DenseArray) (tree : TensorNode)
    (h : apply_matmul_out result impl_self impl_other = .ok (buffer, tree)) :
    NestedNode.shape tree = NestedNode.shape result := by
  unfold apply_matmul_out at h
  split at h
  · cases h
  · rename_i written hw
    dsimp only at h
    split at h
    · rename_i s hs
      cases h
      rw [NestedNode.shape_map _ written _ hs]
      exact NestedNode.shape_map3 _ _ _ _ written hw
    · cases h

theorem shape_nested_size (self : NestedTensor) :
    NestedNode.shape self.nested_size = NestedNode.shape self._structure := by
  rw [nested_size_eq_image, NestedNode.shape_image]

/-- C17: whenever `NestedTensorFunction_matmul::forward` succeeds on a nested
`self`, the result is a nested tensor whose tree has the same shape as the tree of
`self` (the same degree at every level and the same height), whichever of the four
paths produced it. -/
theorem C17_matmul_forward_preserves_tree_shape (ctx : AutogradContext) (self : NestedTensor)
    (other res : Tensor)
    (h : (NestedTensorFunction_matmul.forward ctx (.nested self) other).2 = .ok res) :
    ∃ r, res = .nested r ∧
      NestedNode.shape r._structure = NestedNode.shape self._structure ∧
      r._structure.height = self._structure.height ∧
      r._structure.degree = self._structure.degree := by
  suffices hshape : ∃ r, res = .nested r ∧
      NestedNode.shape r._structure = NestedNode.shape self._structure by
    obtain ⟨r, hr, hs⟩ := hshape
    exact ⟨r, hr, hs, NestedNode.height_eq_of_shape_eq hs, NestedNode.degree_eq_of_shape_eq hs⟩
  unfold NestedTensorFunction_matmul.forward at h
  simp only [get_nested_tensor_impl, Except_ok_bind] at h
  cases other with
  | nested impl_other =>
    dsimp only at h
    obtain ⟨g, _, h⟩ := Except_bind_eq_ok h
    cases g with
    | false => exact shape_map_nested_tensor2 _ _ _ _ (by simpa using h)
    | true =>
      simp only [if_true] at h
      obtain ⟨new_nested_size, hns, h⟩ := Except_bind_eq_ok h
      obtain ⟨result, hresult, h⟩ := Except_bind_eq_ok h
      obtain ⟨⟨buffer, tree⟩, hout, h⟩ := Except_bind_eq_ok h
      cases h
      refine ⟨_, rfl, ?_⟩
      simp only [wrap_tensor_node]
      rw [shape_apply_matmul_out _ _ _ _ _ hout, shape_build_structure _ _ _ hresult,
        NestedNode.shape_map2 _ _ _ _ hns, shape_nested_size]
  | dense other_dense =>
    dsimp only at h
    split at h
    · obtain ⟨g, _, h⟩ := Except_bind_eq_ok h
      cases g with
      | false => exact shape_map_nested_tensor _ _ _ (by simpa using h)
      | true =>
        simp only [if_true] at h
        obtain ⟨new_nested_size, hns, h⟩ := Except_bind_eq_ok h
        obtain ⟨buffer, _, h⟩ := Except_bind_eq_ok h
        obtain ⟨rows, _, h⟩ := Except_bind_eq_ok h
        obtain ⟨lhs, _, h⟩ := Except_bind_eq_ok h
        obtain ⟨product, _, h⟩ := Except_bind_eq_ok h
        obtain ⟨flat, _, h⟩ := Except_bind_eq_ok h
        obtain ⟨tree, htree, h⟩ := Except_bind_eq_ok h
        cases h
        refine ⟨_, rfl, ?_⟩
        simp only [wrap_tensor_node]
        rw [shape_build_structure _ _ _ htree, NestedNode.shape_map _ _ _ hns, shape_nested_size]
    · exact shape_map_nested_tensor _ _ _ h

/-- C17 at a concrete call on the packed NT x T path: two leaves in, two leaves out. -/
theorem C17_matmul_forward_preserves_tree_shape_witness :
    ∃ res, (NestedTensorFunction_matmul.forward AutogradContext.empty
        (.nested (packed_of [dense_of [2, 2] [1, 2, 3, 4], dense_of [1, 2] [5, 6]]))
        (.dense (dense_of [2, 2] [1, 1, 0, 1]))).2 = .ok res ∧
      ∃ r, res = .nested r ∧
        NestedNode.shape r._structure =
          NestedNode.shape (packed_of [dense_of [2, 2] [1, 2, 3, 4], dense_of [1, 2] [5, 6]])._structure ∧
        r._structure.height =
          (packed_of [dense_of [2, 2] [1, 2, 3, 4], dense_of [1, 2] [5, 6]])._structure.height ∧
        r._structure.degree =
          (packed_of [dense_of [2, 2] [1, 2, 3, 4], dense_of [1, 2] [5, 6]])._structure.degree :=
  ⟨_, rfl, C17_matmul_forward_preserves_tree_shape AutogradContext.empty
    (packed_of [dense_of [2, 2] [1, 2, 3, 4], dense_of [1, 2] [5, 6]])
    (.dense (dense_of [2, 2] [1, 1, 0, 1])) _ rfl⟩

/-! ### `requires_grad_` -/

theorem is_contiguous_after_apply (layout : DenseArray → Bool)
    (hlayout : ∀ t flag, layout (DenseArray.set_requires_grad t flag) = layout t)
    (self : NestedTensor) (flag : Bool) (first : DenseArray) :
    NestedTensor.is_contiguous layout
        ⟨self._buffer,
          NestedNode.image (fun tensor => tensor.set_requires_grad flag) self._structure, first⟩ =
      self.is_contiguous layout := by
  cases hb : self._buffer with
  | none => simp [NestedTensor.is_contiguous, hb, optional_value]
  | some b =>
    rw [is_contiguous_eq layout _ b rfl, is_contiguous_eq layout self b hb]
    simp only [NestedNode.flatten_image, List.all_map, Function.comp_def, hlayout]

theorem is_contiguous_ok_buffer (layout : DenseArray → Bool) (self : NestedTensor) (v : Bool)
    (h : self.is_contiguous layout = .ok v) : ∃ b, self._buffer = some b := by
  cases hb : self._buffer with
  | none => simp [NestedTensor.is_contiguous, hb, optional_value] at h
  | some b => exact ⟨b, rfl⟩

/-- C13, as amended: after `requires_grad_(flag)` every leaf of the structure has
the flag; the buffer has the flag too whenever `is_contiguous()` holds (a buffer is
present, it is contiguous and every leaf is contiguous) and is left as it was
otherwise; the tree shape, the leaf shapes and the leaf values are unchanged, and
the call returns for every tensor that holds a buffer. Setting the flag does not
change the memory layout (`hlayout`). -/
theorem C13_requires_grad_sets_flags (layout : DenseArray → Bool)
    (hlayout : ∀ t flag, layout (DenseArray.set_requires_grad t flag) = layout t)
    (self : NestedTensor) (flag : Bool) :
    (∀ leaf ∈ NestedNode.flatten (self.requires_grad_ layout flag).1._structure,
      leaf.requires_grad = flag) ∧
    (self.is_contiguous layout = .ok true →
      ∃ b, self._buffer = some b ∧
        (self.requires_grad_ layout flag).1._buffer = some (b.set_requires_grad flag)) ∧
    (self.is_contiguous layout ≠ .ok true →
      (self.requires_grad_ layout flag).1._buffer = self._buffer) ∧
    NestedNode.shape (self.requires_grad_ layout flag).1._structure =
      NestedNode.shape self._structure ∧
    (NestedNode.flatten (self.requires_grad_ layout flag).1._structure).map
        (fun t => (t.sizes, t.data)) =
      (NestedNode.flatten self._structure).map (fun t => (t.sizes, t.data)) ∧
    (∀ b, self._buffer = some b → (self.requires_grad_ layout flag).2 = .ok ()) := by
  have hc := is_contiguous_after_apply layout hlayout self flag
    (((NestedNode.image (fun tensor => tensor.set_requires_grad flag)
      self._structure).get_first_leaf).getD self._first_variable)
  have hstruct : (self.requires_grad_ layout flag).1._structure =
      NestedNode.image (fun tensor => tensor.set_requires_grad flag) self._structure := by
    unfold NestedTensor.requires_grad_
    dsimp only
    split <;> rfl
  refine ⟨?_, ?_, ?_, ?_, ?_, ?_⟩
  · intro leaf hleaf
    rw [hstruct, NestedNode.flatten_image] at hleaf
    obtain ⟨t, _, rfl⟩ := List.mem_map.mp hleaf
    rfl
  · intro hcont
    obtain ⟨b, hb⟩ := is_contiguous_ok_buffer layout self true hcont
    refine ⟨b, hb, ?_⟩
    unfold NestedTensor.requires_grad_
    dsimp only
    rw [hc, hcont]
    simp [hb]
  · intro hcont
    unfold NestedTensor.requires_grad_
    dsimp only
    rw [hc]
    cases hv : self.is_contiguous layout with
    | error e => rfl
    | ok v =>
      cases v with
      | true => exact absurd hv hcont
      | false => rfl
  · rw [hstruct, NestedNode.shape_image]
  · rw [hstruct, NestedNode.flatten_image]
    simp [List.map_map, Function.comp_def, DenseArray.set_requires_grad]
  · intro b hb
    unfold NestedTensor.requires_grad_
    dsimp only
    rw [hc, is_contiguous_eq layout self b hb]
    cases layout b && (NestedNode.flatten self._structure).all layout <;> rfl

/-- C13 as stated fails at a packed tensor whose leaves are strided views: the
buffer is present and does not require grad, `requires_grad_(true)` returns and sets
the flag on both leaves, `is_contiguous()` is false, and the buffer is left without
the flag. -/
theorem C13_buffer_flag_not_set_when_not_contiguous :
    (∀ t flag, layout_strided_leaves (DenseArray.set_requires_grad t flag) =
      layout_strided_leaves t) ∧
    (packed_of [full [2, 3] 1, full [1, 3] 2])._buffer =
      some ⟨[9], [1, 1, 1, 1, 1, 1, 2, 2, 2], false⟩ ∧
    (packed_of [full [2, 3] 1, full [1, 3] 2]).is_contiguous layout_strided_leaves = .ok false ∧
    ((packed_of [full [2, 3] 1, full [1, 3] 2]).requires_grad_
        layout_strided_leaves true).2 = .ok () ∧
    NestedNode.flatten ((packed_of [full [2, 3] 1, full [1, 3] 2]).requires_grad_
        layout_strided_leaves true).1._structure =
      [⟨[2, 3], [1, 1, 1, 1, 1, 1], true⟩, ⟨[1, 3], [2, 2, 2], true⟩] ∧
    ((packed_of [full [2, 3] 1, full [1, 3] 2]).requires_grad_
        layout_strided_leaves true).1._buffer =
      some ⟨[9], [1, 1, 1, 1, 1, 1, 2, 2, 2], false⟩ :=
  ⟨fun _ _ => rfl, rfl, rfl, rfl, rfl, rfl⟩

/-- C13, as amended, at a concrete contiguous tensor: leaves and buffer get the flag. -/
theorem C13_requires_grad_sets_flags_witness :
    (∀ t flag, layout_all_contiguous (DenseArray.set_requires_grad t flag) =
      layout_all_contiguous t) ∧
    (packed_of [full [2, 3] 1, full [1, 3] 2]).is_contiguous layout_all_contiguous = .ok true ∧
    ∃ b, (packed_of [full [2, 3] 1, full [1, 3] 2])._buffer = some b ∧
      ((packed_of [full [2, 3] 1, full [1, 3] 2]).requires_grad_
        layout_all_contiguous true).1._buffer = some (b.set_requires_grad true) :=
  ⟨fun _ _ => rfl, rfl,
    (C13_requires_grad_sets_flags layout_all_contiguous (fun _ _ => rfl)
      (packed_of [full [2, 3] 1, full [1, 3] 2]) true).2.1 rfl⟩

/-! ### `to_tensor` -/

theorem any_lt_neg_one_ofNat (l : List Nat) :
    (l.map Int.ofNat).any (fun d => decide (d < -1)) = false := by
  induction l with
  | nil => rfl
  | cons x xs ih =>
    have hx : ¬ (Int.ofNat x < -1) := by
      have : (0 : Int) ≤ Int.ofNat x := Int.ofNat_nonneg x
      omega
    simp only [List.map_cons, List.any_cons, ih, Bool.or_false, decide_eq_false_iff_not]
    exact hx

theorem count_neg_one_ofNat (l : List Nat) : (l.map Int.ofNat).count (-1) = 0 := by
  induction l with
  | nil => rfl
  | cons x xs ih =>
    have hx : ¬ (Int.ofNat x = -1) := by
      have : (0 : Int) ≤ Int.ofNat x := Int.ofNat_nonneg x
      omega
    simp only [List.map_cons]
    rw [List.count_cons_of_ne (fun h => hx h.symm), ih]

theorem filter_ne_neg_one_ofNat (l : List Nat) :
    ((l.map Int.ofNat).filter (fun d => decide (d ≠ -1))).map Int.toNat = l := by
  induction l with
  | nil => rfl
  | cons x xs ih =>
    have hx : Int.ofNat x ≠ -1 := by
      have : (0 : Int) ≤ Int.ofNat x := Int.ofNat_nonneg x
      omega
    simp only [List.map_cons]
    rw [List.filter_cons_of_pos (by simp [hx])]
    simp only [List.map_cons, ih]
    rfl

theorem contains_neg_one_ofNat (l : List Nat) : (l.map Int.ofNat).contains (-1) = false := by
  induction l with
  | nil => rfl
  | cons x xs ih =>
    have hx : ¬ ((-1 : Int) = Int.ofNat x) := by
      have : (0 : Int) ≤ Int.ofNat x := Int.ofNat_nonneg x
      omega
    simp only [List.map_cons, List.contains_cons, ih, Bool.or_false]
    simp [hx]

theorem map_toNat_ofNat (l : List Nat) : (l.map Int.ofNat).map Int.toNat = l := by
  induction l with
  | nil => rfl
  | cons x xs ih =>
    simp only [List.map_cons, ih]
    rfl

theorem infer_size_concrete (l : List Nat) (n : Nat) :
    infer_size (l.map Int.ofNat) n =
      if n = numel_of l then .ok l else .error (.library "shape is invalid for input size") := by
  unfold infer_size
  simp only [any_lt_neg_one_ofNat, count_neg_one_ofNat, filter_ne_neg_one_ofNat,
    contains_neg_one_ofNat, map_toNat_ofNat]
  simp

theorem reshape_concrete (b : DenseArray) (l : List Nat) :
    b.reshape (l.map Int.ofNat) =
      if b.data.length = numel_of l then .ok ⟨l, b.data, false⟩
      else .error (.library "shape is invalid for input size") := by
  unfold DenseArray.reshape
  rw [infer_size_concrete]
  by_cases h : b.data.length = numel_of l
  · simp [h]
  · simp [h]

theorem concrete_sizes_map_some (l : List Nat) : concrete_sizes (l.map some) = .ok l := by
  induction l with
  | nil => rfl
  | cons x xs ih => simp [concrete_sizes, ih]

theorem concrete_sizes_ok :
    ∀ (l : List (Option Nat)) (out : List Nat), concrete_sizes l = .ok out → l = out.map some
  | [], out, h => by
    simp only [concrete_sizes, Except.ok.injEq] at h
    simp [← h]
  | none :: _, out, h => by simp [concrete_sizes] at h
  | some n :: rest, out, h => by
    simp only [concrete_sizes] at h
    split at h
    · rename_i l1 hl1
      cases h
      simp [concrete_sizes_ok rest l1 hl1]
    · cases h

theorem to_tensor_contiguous (layout : DenseArray → Bool) (self : NestedTensor) (b : DenseArray)
    (hc : self.is_contiguous layout = .ok true) (hb : self._buffer = some b) :
    self.to_tensor layout =
      match concrete_sizes self.size with
      | .error e => .error e
      | .ok new_size => b.reshape (new_size.map Int.ofNat) := by
  unfold NestedTensor.to_tensor
  rw [hc]
  simp only [hb, optional_value]

theorem vector_at_of_lt (l : List (Option Nat)) (i : Nat) (h : i < l.length) :
    vector_at l i = .ok (l.getD i none) := by
  unfold vector_at
  rw [List.get?_eq_getElem?, List.getD_eq_getElem?_getD, List.getElem?_eq_getElem h]
  rfl

theorem packed_nt_nt_guard_eq_pattern (self other : NestedTensor)
    (hs : self.size.length = self.dim) (ho : other.size.length = other.dim) :
    packed_nt_nt_guard self other = .ok (batched_head_pattern self other) := by
  unfold packed_nt_nt_guard batched_head_pattern
  by_cases hc : self._buffer.isSome = true ∧ other._buffer.isSome = true ∧ self.dim = 4 ∧
      other.dim = 4
  · obtain ⟨h1, h2, h3, h4⟩ := hc
    rw [h3] at hs
    rw [h4] at ho
    simp only [h1, h2, h3, h4, and_self, if_true, decide_True, Bool.and_self, Bool.true_and,
      vector_at_of_lt self.size 0 (by omega), vector_at_of_lt self.size 1 (by omega),
      vector_at_of_lt self.size 3 (by omega), vector_at_of_lt other.size 0 (by omega),
      vector_at_of_lt other.size 1 (by omega), vector_at_of_lt other.size 2 (by omega),
      Except_ok_bind]
    generalize self.size.getD 0 none = s0
    generalize other.size.getD 0 none = o0
    generalize self.size.getD 1 none = s1
    generalize other.size.getD 1 none = o1
    generalize self.size.getD 3 none = s3
    generalize other.size.getD 2 none = o2
    cases s0 <;> cases o0 <;> cases s1 <;> cases o1 <;> cases s3 <;> cases o2 <;>
      simp [pure, Except.pure, Bool.and_assoc]
  · rw [if_neg hc]
    have : (self._buffer.isSome && other._buffer.isSome && decide (self.dim = 4) &&
        decide (other.dim = 4)) = false := by
      by_contra hne
      simp only [Bool.not_eq_false, Bool.and_eq_true, decide_eq_true_eq] at hne
      exact hc ⟨hne.1.1.1, hne.1.1.2, hne.1.2, hne.2⟩
    simp only [this, Bool.false_and]
    rfl

/-- C15: for two nested operands whose `size()` has one entry per dimension, the
guard of the packed NT x NT path is the batched-head pattern of the specification.
When the pattern holds, `NestedTensorFunction_matmul::forward` runs the packed
path (per-leaf shapes, one new buffer, products written into its views), and a
result it returns is packed; when any part of the pattern fails, forward is the
leaf-wise map, so the mismatch itself raises nothing. -/
theorem C15_packed_nt_nt_selection (ctx : AutogradContext) (self other : NestedTensor)
    (hs : self.size.length = self.dim) (ho : other.size.length = other.dim) :
    packed_nt_nt_guard self other = .ok (batched_head_pattern self other) ∧
    (batched_head_pattern self other = true →
      (NestedTensorFunction_matmul.forward ctx (.nested self) (.nested other)).2 =
          (do
            let new_nested_size ← NestedNode.map2
              (fun (self_size other_size : List Nat) => do
                let d0 ← list_at self_size 0
                let d1 ← list_at self_size 1
                let d2 ← list_at other_size 2
                pure [d0, d1, d2])
              self.nested_size other.nested_size
            let result ← build_structure
              (at_empty (NestedNode.reduce
                (fun (leaf : List Nat) (input : Nat) =>
                  input + leaf.getD 0 0 * leaf.getD 1 0 * leaf.getD 2 0)
                new_nested_size 0))
              new_nested_size
            let (buffer, tree) ← apply_matmul_out result self other
            pure (wrap_tensor_node (some buffer) tree)) ∧
        ∀ res, (NestedTensorFunction_matmul.forward ctx (.nested self) (.nested other)).2 =
            .ok res → ∃ r, res = .nested r ∧ r._buffer.isSome = true) ∧
    (batched_head_pattern self other = false →
      (NestedTensorFunction_matmul.forward ctx (.nested self) (.nested other)).2 =
          map_nested_tensor2 (fun s o => DenseArray.matmul s o) self other ∧
        ∀ res, (NestedTensorFunction_matmul.forward ctx (.nested self) (.nested other)).2 =
            .ok res → ∃ r, res = .nested r ∧ r._buffer = none) := by
  have hguard := packed_nt_nt_guard_eq_pattern self other hs ho
  refine ⟨hguard, fun hp => ?_, fun hp => ?_⟩
  · have heq : (NestedTensorFunction_matmul.forward ctx (.nested self) (.nested other)).2 =
          (do
            let new_nested_size ← NestedNode.map2
              (fun (self_size other_size : List Nat) => do
                let d0 ← list_at self_size 0
                let d1 ← list_at self_size 1
                let d2 ← list_at other_size 2
                pure [d0, d1, d2])
              self.nested_size other.nested_size
            let result ← build_structure
              (at_empty (NestedNode.reduce
                (fun (leaf : List Nat) (input : Nat) =>
                  input + leaf.getD 0 0 * leaf.getD 1 0 * leaf.getD 2 0)
                new_nested_size 0))
              new_nested_size
            let (buffer, tree) ← apply_matmul_out result self other
            pure (wrap_tensor_node (some buffer) tree)) := by
      unfold NestedTensorFunction_matmul.forward
      simp only [get_nested_tensor_impl, Except_ok_bind, hguard, hp, if_true]
    refine ⟨heq, fun res hres => ?_⟩
    rw [heq] at hres
    obtain ⟨new_nested_size, _, hres⟩ := Except_bind_eq_ok hres
    obtain ⟨result, _, hres⟩ := Except_bind_eq_ok hres
    obtain ⟨⟨buffer, tree⟩, _, hres⟩ := Except_bind_eq_ok hres
    cases hres
    exact ⟨_, rfl, rfl⟩
  · have heq : (NestedTensorFunction_matmul.forward ctx (.nested self) (.nested other)).2 =
        map_nested_tensor2 (fun s o => DenseArray.matmul s o) self other := by
      unfold NestedTensorFunction_matmul.forward
      simp only [get_nested_tensor_impl, Except_ok_bind, hguard, hp]
      rfl
    refine ⟨heq, fun res hres => ?_⟩
    rw [heq] at hres
    unfold map_nested_tensor2 at hres
    split at hres
    · cases hres
      exact ⟨_, rfl, rfl⟩
    · cases hres

/-- C15 at a concrete pair of packed operands of nesting depth 1 with leaves of shape
(2, 3, 4) and (2, 4, 2): the guard holds and is the pattern of the specification. -/
theorem C15_packed_nt_nt_selection_witness :
    ((packed_of [full [2, 3, 4] 1, full [2, 3, 4] 1]).size.length =
        (packed_of [full [2, 3, 4] 1, full [2, 3, 4] 1]).dim ∧
      (packed_of [full [2, 4, 2] 1, full [2, 4, 2] 1]).size.length =
        (packed_of [full [2, 4, 2] 1, full [2, 4, 2] 1]).dim) ∧
    batched_head_pattern (packed_of [full [2, 3, 4] 1, full [2, 3, 4] 1])
      (packed_of [full [2, 4, 2] 1, full [2, 4, 2] 1]) = true ∧
    packed_nt_nt_guard (packed_of [full [2, 3, 4] 1, full [2, 3, 4] 1])
        (packed_of [full [2, 4, 2] 1, full [2, 4, 2] 1]) =
      .ok (batched_head_pattern (packed_of [full [2, 3, 4] 1, full [2, 3, 4] 1])
        (packed_of [full [2, 4, 2] 1, full [2, 4, 2] 1])) :=
  ⟨⟨rfl, rfl⟩, rfl,
    (C15_packed_nt_nt_selection AutogradContext.empty
      (packed_of [full [2, 3, 4] 1, full [2, 3, 4] 1])
      (packed_of [full [2, 4, 2] 1, full [2, 4, 2] 1]) rfl rfl).1⟩

/-! ### The product of `size()` and `numel()` -/

theorem merge_sizes_all_some :
    ∀ (a b : List (Option Nat)) (l : List Nat), a.length = b.length →
      merge_sizes a b = l.map some → a = l.map some ∧ b = l.map some
  | [], [], l, _, h => by
    cases l with
    | nil => exact ⟨rfl, rfl⟩
    | cons x xs => simp [merge_sizes] at h
  | [], _ :: _, l, hlen, _ => by simp at hlen
  | _ :: _, [], l, hlen, _ => by simp at hlen
  | x :: a, y :: b, l, hlen, h => by
    cases l with
    | nil => simp [merge_sizes] at h
    | cons v vs =>
      simp only [merge_sizes, List.zipWith_cons_cons, List.map_cons, List.cons.injEq] at h
      obtain ⟨hxy, hrest⟩ := h
      have hlen1 : a.length = b.length := by simpa using hlen
      obtain ⟨ha, hb⟩ := merge_sizes_all_some a b vs hlen1 hrest
      by_cases hx : x = y
      · simp only [hx, if_true] at hxy
        subst hx
        exact ⟨by rw [hxy, ha]; rfl, by rw [hxy, hb]; rfl⟩
      · simp [hx] at hxy

theorem length_construct_size_children :
    ∀ (c : SizeNode) (cs : List SizeNode), uniform_rank_children (c :: cs) = true →
      (construct_size_children (c :: cs)).length = (construct_size c).length
  | c, [], _ => by simp [construct_size_children]
  | c, c1 :: cs, h => by
    simp only [uniform_rank_children, Bool.and_eq_true, decide_eq_true_eq] at h
    obtain ⟨⟨_, hlen⟩, hrest⟩ := h
    have ih := length_construct_size_children c1 cs hrest
    simp only [construct_size_children, merge_sizes, List.length_zipWith]
    rw [ih, hlen]
    simp

theorem map_some_injective (a b : List Nat) (h : a.map some = b.map some) : a = b := by
  induction a generalizing b with
  | nil =>
    cases b with
    | nil => rfl
    | cons y ys => simp at h
  | cons x xs ih =>
    cases b with
    | nil => simp at h
    | cons y ys =>
      simp only [List.map_cons, List.cons.injEq, Option.some.injEq] at h
      rw [h.1, ih ys h.2]

mutual
theorem numel_of_construct_size :
    ∀ (s : SizeNode) (l : List Nat), uniform_rank s = true → construct_size s = l.map some →
      ((NestedNode.flatten s).map numel_of).sum = numel_of l
  | .leaf sizes, l, _, h => by
    simp only [construct_size] at h
    rw [map_some_injective sizes l h]
    simp [NestedNode.flatten]
  | .node cs, l, hu, h => by
    simp only [construct_size] at h
    cases l with
    | nil => simp at h
    | cons v vs =>
      simp only [List.map_cons, List.cons.injEq, Option.some.injEq] at h
      obtain ⟨hv, hrest⟩ := h
      simp only [uniform_rank] at hu
      have := numel_of_construct_size_children cs vs hu hrest
      simp only [NestedNode.flatten, this, numel_of, List.foldr_cons, hv]
theorem numel_of_construct_size_children :
    ∀ (cs : List SizeNode) (l : List Nat), uniform_rank_children cs = true →
      construct_size_children cs = l.map some →
      ((NestedNode.flatten_children cs).map numel_of).sum = cs.length * numel_of l
  | [], l, _, _ => by simp [NestedNode.flatten_children]
  | [c], l, hu, h => by
    simp only [uniform_rank_children] at hu
    simp only [construct_size_children] at h
    have := numel_of_construct_size c l hu h
    simp [NestedNode.flatten_children, this]
  | c :: c1 :: cs, l, hu, h => by
    have hlen := length_construct_size_children c1 cs (by
      simp only [uniform_rank_children, Bool.and_eq_true] at hu
      exact hu.2)
    simp only [uniform_rank_children, Bool.and_eq_true, decide_eq_true_eq] at hu
    obtain ⟨⟨huc, hl⟩, hrest⟩ := hu
    simp only [construct_size_children] at h
    obtain ⟨ha, hb⟩ := merge_sizes_all_some _ _ l (by rw [hlen, hl]) h
    have h1 := numel_of_construct_size c l huc ha
    have h2 := numel_of_construct_size_children (c1 :: cs) l hrest hb
    simp only [NestedNode.flatten_children, List.map_append, List.sum_append, h1,
      List.length_cons] at h2 ⊢
    rw [h2]
    simp only [Nat.add_mul, Nat.one_mul]
    omega
end

theorem numel_eq_sum_nested_size (self : NestedTensor) :
    self.numel = ((NestedNode.flatten self.nested_size).map numel_of).sum := by
  unfold NestedTensor.numel
  rw [NestedNode.reduce_eq_foldl_flatten, foldl_add_numel, nested_size_eq_image,
    NestedNode.flatten_image]
  simp only [List.map_map, Function.comp_def, Nat.zero_add]
  rfl

/-- C19, as amended: for every contiguous NestedTensor whose leaves all have the
same rank and sit at the same nesting depth (all children of a node have size lists
of the same length), whose buffer holds `numel()` elements and whose `size()` has
every entry concrete, the product of the entries of `size()` equals `numel()`, and
`to_tensor()` returns the buffer in that shape. -/
theorem C19_size_product_eq_numel (layout : DenseArray → Bool) (self : NestedTensor)
    (b : DenseArray) (new_size : List Nat)
    (hc : self.is_contiguous layout = .ok true) (hb : self._buffer = some b)
    (hlen : b.data.length = self.numel) (hsize : self.size = new_size.map some)
    (hu : uniform_rank self.nested_size = true) :
    numel_of new_size = self.numel ∧
    self.to_tensor layout = .ok ⟨new_size, b.data, false⟩ := by
  have hprod : numel_of new_size = self.numel := by
    rw [numel_eq_sum_nested_size]
    exact (numel_of_construct_size self.nested_size new_size hu hsize).symm
  refine ⟨hprod, ?_⟩
  rw [to_tensor_contiguous layout self b hc hb, hsize, concrete_sizes_map_some]
  simp only [reshape_concrete, hlen, hprod, if_true]

/-- C19 as stated fails for leaves of different rank: the packed tensor with a leaf
of shape (2) and a leaf of shape (2, 3) is contiguous, its buffer holds
`numel() = 8` elements, `size()` is `[2, 2]` with every entry concrete, the product
of its entries is 4, and the reshape in `to_tensor()` is refused for the element
count. -/
theorem C19_mixed_rank_leaves :
    (packed_of [full [2] 1, full [2, 3] 1]).is_contiguous layout_all_contiguous = .ok true ∧
    ((packed_of [full [2] 1, full [2, 3] 1])._buffer.map (fun b => b.data.length)) = some 8 ∧
    (packed_of [full [2] 1, full [2, 3] 1]).numel = 8 ∧
    (packed_of [full [2] 1, full [2, 3] 1]).size = [some 2, some 2] ∧
    numel_of [2, 2] = 4 ∧
    (packed_of [full [2] 1, full [2, 3] 1]).to_tensor layout_all_contiguous =
      .error (.library "shape is invalid for input size") :=
  ⟨rfl, rfl, rfl, rfl, rfl, rfl⟩

/-- C19, as amended, at a concrete tensor with two leaves of shape (2, 3). -/
theorem C19_size_product_eq_numel_witness :
    ((packed_of [full [2, 3] 1, full [2, 3] 2]).is_contiguous layout_all_contiguous = .ok true ∧
      (packed_of [full [2, 3] 1, full [2, 3] 2])._buffer =
        some ⟨[12], [1, 1, 1, 1, 1, 1, 2, 2, 2, 2, 2, 2], false⟩ ∧
      (packed_of [full [2, 3] 1, full [2, 3] 2]).size = [2, 2, 3].map some ∧
      uniform_rank (packed_of [full [2, 3] 1, full [2, 3] 2]).nested_size = true) ∧
    numel_of [2, 2, 3] = (packed_of [full [2, 3] 1, full [2, 3] 2]).numel ∧
    (packed_of [full [2, 3] 1, full [2, 3] 2]).to_tensor layout_all_contiguous =
      .ok ⟨[2, 2, 3], [1, 1, 1, 1, 1, 1, 2, 2, 2, 2, 2, 2], false⟩ :=
  ⟨⟨rfl, rfl, rfl, rfl⟩,
    C19_size_product_eq_numel layout_all_contiguous (packed_of [full [2, 3] 1, full [2, 3] 2])
      ⟨[12], [1, 1, 1, 1, 1, 1, 2, 2, 2, 2, 2, 2], false⟩ [2, 2, 3] rfl rfl rfl rfl rfl⟩

